import Mathlib

/-
Verification development for the CEDmate analytics pipeline
(src/cedmate_analytics.py and src/export_pdf.py).

The pandas DataFrame is modelled as an ordered list of column names plus a
list of rows; each cell holds a scalar of the tagged-union type `Val`.
Datetime instants are integers (seconds since the epoch).  The in-place
mutations performed by the Python code (`_detect_time_col` step 2 and
`plot_mahlzeit`) are made explicit: those functions return the updated
frame alongside their result.  File writes are modelled by an explicit
list of written paths.
-/

namespace Cedmate

/-- Scalar cell values.  `dt` is a datetime64 value; `dtstr` is a string
literal that the datetime parser accepts, parsing to the given instant;
`ts` is a store-native timestamp object (it has a to_datetime method);
`null` covers NaN/NaT/None. -/
inductive Val : Type where
  | null : Val
  | str : String → Val
  | boolean : Bool → Val
  | num : Int → Val
  | dt : Int → Val
  | dtstr : Int → Val
  | ts : Int → Val
deriving DecidableEq

/-- True on datetime64 cells. -/
def Val.isDt : Val → Bool
  | .dt _ => true
  | _ => false

/-- True on the null cell. -/
def Val.isNull : Val → Bool
  | .null => true
  | _ => false

/-- True on numeric cells. -/
def Val.isNum : Val → Bool
  | .num _ => true
  | _ => false

/-- True on boolean cells. -/
def Val.isBool : Val → Bool
  | .boolean _ => true
  | _ => false

/-- Result of applying the datetime parser (pd.to_datetime) to one cell:
datetime values, datetime-parsable strings, store timestamps and numbers
(epoch interpretation) parse; other non-null cells do not. -/
def parseVal : Val → Option Int
  | .dt t => some t
  | .dtstr t => some t
  | .ts t => some t
  | .num n => some n
  | _ => none

/-- Column dtype test modelling pd.api.types.is_datetime64_any_dtype for a
column built from scalar rows: at least one datetime value and nothing but
datetime values and nulls (NaT). -/
def dtypeDatetime (vs : List Val) : Bool :=
  vs.any Val.isDt && vs.all (fun v => v.isDt || v.isNull)

/-- Column dtype test modelling pd.api.types.is_numeric_dtype: a numeric
column (numbers, possibly with nulls) or an all-boolean column. -/
def dtypeNumeric (vs : List Val) : Bool :=
  (vs.any Val.isNum && vs.all (fun v => v.isNum || v.isNull)) ||
    (!vs.isEmpty && vs.all Val.isBool)

/-- Normalized table: ordered column names and rows of cells. -/
structure DataFrame where
  colNames : List String
  rows : List (List Val)
deriving DecidableEq

/-- Index of a column name, by first occurrence. -/
def DataFrame.colIdx (df : DataFrame) (c : String) : Option Nat :=
  df.colNames.findIdx? (fun n => n == c)

/-- Column access df[c]: the cells of column c in row order. -/
def DataFrame.col (df : DataFrame) (c : String) : List Val :=
  match df.colIdx c with
  | some i => df.rows.map (fun r => r.getD i Val.null)
  | none => []

/-- Column assignment df[c] = vs: overwrite an existing column in place,
or append a new column. -/
def DataFrame.setCol (df : DataFrame) (c : String) (vs : List Val) : DataFrame :=
  match df.colIdx c with
  | some i => { df with rows := df.rows.zipWith (fun r v => r.set i v) vs }
  | none =>
    { colNames := df.colNames ++ [c], rows := df.rows.zipWith (fun r v => r ++ [v]) vs }

/-- Emptiness test modelling pandas df.empty (an axis of length zero). -/
def DataFrame.empty (df : DataFrame) : Bool :=
  df.rows.isEmpty || df.colNames.isEmpty

/-- Well-formedness: every row has exactly one cell per column.  pandas
guarantees this shape for every real DataFrame. -/
def DataFrame.wfB (df : DataFrame) : Bool :=
  df.rows.all (fun r => r.length == df.colNames.length)

/-- Lowercasing modelling Python str.lower, mapped over the characters.
(Defined over the character list so that it evaluates by kernel
reduction.) -/
def lowerStr (s : String) : String :=
  String.mk (s.toList.map Char.toLower)

/-- Helper for substring search: does the second list lead the first? -/
def leadMatch : List Char → List Char → Bool
  | _, [] => true
  | [], _ :: _ => false
  | a :: as, b :: bs => a == b && leadMatch as bs

/-- Substring containment test modelling Python `needle in hay`. -/
def strContains (hay needle : String) : Bool :=
  hay.toList.tails.any (fun t => leadMatch t needle.toList)

/-- Fixed ordered fragment list of _detect_time_col (source line 62). -/
def name_order : List String :=
  ["zeit", "time", "datum", "date", "timestamp", "startzeit", "endzeit",
   "mahlzeitzeitpunkt"]

/-- Strict parse of one cell under pd.to_datetime: nulls become NaT,
parsable cells become datetime values, anything else raises (none). -/
def parseCell (v : Val) : Option Val :=
  match v with
  | .null => some Val.null
  | v => (parseVal v).map Val.dt

/-- Strict parse of a whole column (pd.to_datetime without coercion):
succeeds only when every cell parses. -/
def columnParse : List Val → Option (List Val)
  | [] => some []
  | v :: vs =>
    match parseCell v, columnParse vs with
    | some w, some ws => some (w :: ws)
    | _, _ => none

/-- Coercing parse of one cell (pd.to_datetime with errors-coerce):
unparseable cells become null. -/
def coerceCell (v : Val) : Val :=
  match parseVal v with
  | some t => Val.dt t
  | none => Val.null

/-- Coercing parse of a whole column. -/
def coerceCol (vs : List Val) : List Val :=
  vs.map coerceCell

/-- Name-heuristic loop of _detect_time_col (source lines 64-72): for each
fragment, the first column whose lowercased name contains it is tried; on
parse success that column is overwritten with the parsed values and
returned; on parse failure the next fragment is tried. -/
def detectByName (df : DataFrame) : List String → Option String × DataFrame
  | [] => (none, df)
  | key :: rest =>
    let cand := df.colNames.filter (fun c => strContains (lowerStr c) key)
    match cand with
    | [] => detectByName df rest
    | c :: _ =>
      match columnParse (df.col c) with
      | some vs => (some c, df.setCol c vs)
      | none => detectByName df rest

/-- Embedding of _detect_time_col (source lines 56-73).  The second
component is the caller's frame after the call (step 2 mutates it). -/
def detect_time_col (df : DataFrame) : Option String × DataFrame :=
  match df.colNames.filter (fun c => dtypeDatetime (df.col c)) with
  | c :: _ => (some c, df)
  | [] => detectByName df name_order

/-- Preference loop of _detect_value_col (source lines 78-81): for each
preferred name, the first column whose lowercased name equals it is
examined and returned when numeric; otherwise the next name is tried. -/
def valuePrefScan (df : DataFrame) : List String → Option String
  | [] => none
  | name :: rest =>
    let cols := df.colNames.filter (fun c => name == lowerStr c)
    match cols with
    | c :: _ => if dtypeNumeric (df.col c) then some c else valuePrefScan df rest
    | [] => valuePrefScan df rest

/-- Embedding of _detect_value_col (source lines 76-84). -/
def detect_value_col (df : DataFrame) (preference : List String) : Option String :=
  match valuePrefScan df preference with
  | some c => some c
  | none => (df.colNames.filter (fun c => dtypeNumeric (df.col c))).head?

/-- One document of the external store: its identifier and its field map. -/
structure Doc where
  id : String
  fields : List (String × Val)
deriving DecidableEq

/-- The external store, as the documents found under
users/{user id}/{sub-collection}. -/
abbrev Store : Type :=
  String → String → List Doc

/-- Python dict assignment entry[k] = v: replace the binding in place when
the key exists, otherwise append it. -/
def dictSet (entry : List (String × Val)) (k : String) (v : Val) : List (String × Val) :=
  if entry.any (fun kv => kv.1 == k) then
    entry.map (fun kv => if kv.1 == k then (kv.1, v) else kv)
  else entry ++ [(k, v)]

/-- Conversion of one store-native timestamp value to a datetime. -/
def convertTs (v : Val) : Val :=
  match v with
  | .ts t => Val.dt t
  | v => v

/-- Embedding of _convert_firestore_timestamps (source lines 48-53). -/
def convert_firestore_timestamps (entry : List (String × Val)) : List (String × Val) :=
  entry.map (fun kv => (kv.1, convertTs kv.2))

/-- Column set of pd.DataFrame(rows): union of the row dicts' keys in
first-appearance order. -/
def addKeys (acc : List String) (r : List (String × Val)) : List String :=
  r.foldl (fun a kv => if a.contains kv.1 then a else a ++ [kv.1]) acc

/-- Union of keys over all rows. -/
def unionKeys (rows : List (List (String × Val))) : List String :=
  rows.foldl addKeys []

/-- Cell of a row dict at a key; missing keys are null. -/
def lookupVal (r : List (String × Val)) (k : String) : Val :=
  match List.lookup k r with
  | some v => v
  | none => Val.null

/-- pd.DataFrame built from a list of row dicts. -/
def dfFromRows (rows : List (List (String × Val))) : DataFrame :=
  { colNames := unionKeys rows,
    rows := rows.map (fun r => (unionKeys rows).map (fun c => lookupVal r c)) }

/-- Embedding of _df_from_user_subcollection (source lines 87-97).  The
second component records the store path that was read. -/
def df_from_user_subcollection (db : Store) (user_id : String) (subcollection : String) :
    DataFrame × String :=
  let docs := db user_id subcollection
  let rows := docs.map (fun d =>
    convert_firestore_timestamps (dictSet d.fields ("id") (Val.str d.id)))
  (dfFromRows rows, "users/" ++ user_id ++ "/" ++ subcollection)

/-- Embedding of fetch_for_user (source lines 103-108). -/
def fetch_for_user (db : Store) (collection_name : String) (user_id : String) :
    DataFrame × String :=
  df_from_user_subcollection db user_id collection_name

/-- Python truthiness of the detected column result: None and the empty
string are falsy (the source tests `not tcol`). -/
def falsyName (o : Option String) : Bool :=
  match o with
  | none => true
  | some s => s.isEmpty

/-- Sort key for cells under pandas sort_values: datetime values first in
instant order, nulls (NaT) after them; the remaining ranks keep the
comparison total on cells that a detected time column never contains. -/
def timeKey (v : Val) : Nat × Int :=
  match v with
  | .dt t => (0, t)
  | .null => (1, 0)
  | .dtstr t => (2, t)
  | .ts t => (3, t)
  | .num n => (4, n)
  | .boolean b => (5, if b then 1 else 0)
  | .str _ => (6, 0)

/-- Lexicographic comparison of sort keys. -/
def pairLe (p q : Nat × Int) : Bool :=
  decide (p.1 < q.1) || (decide (p.1 = q.1) && decide (p.2 ≤ q.2))

/-- Cell comparison used by sort_values. -/
def timeLe (a b : Val) : Bool :=
  pairLe (timeKey a) (timeKey b)

/-- Row comparison at a column index. -/
def rowLe (i : Nat) (a b : List Val) : Bool :=
  timeLe (a.getD i Val.null) (b.getD i Val.null)

/-- Insertion into a sorted list under a boolean comparison. -/
def insertLe {α : Type} (le : α → α → Bool) (a : α) : List α → List α
  | [] => [a]
  | b :: bs => if le a b then a :: b :: bs else b :: insertLe le a bs

/-- Insertion sort under a boolean comparison. -/
def sortLe {α : Type} (le : α → α → Bool) : List α → List α
  | [] => []
  | a :: as => insertLe le a (sortLe le as)

/-- Embedding of df.sort_values(c): rows reordered ascending by the cell
in column c, nulls last. -/
def DataFrame.sortValues (df : DataFrame) (c : String) : DataFrame :=
  match df.colIdx c with
  | some i => { df with rows := sortLe (rowLe i) df.rows }
  | none => df

/-- Embedding of df.dropna(subset=[c]): keep rows whose cell at c is not
null.  Returns a new frame (pandas returns a copy). -/
def DataFrame.dropnaAt (df : DataFrame) (c : String) : DataFrame :=
  match df.colIdx c with
  | some i => { df with rows := df.rows.filter (fun r => !(r.getD i Val.null).isNull) }
  | none => df

/-- Scatter or line chart artifact: its path and the plotted series. -/
structure ChartOut where
  path : String
  xs : List Val
  ys : List Val
deriving DecidableEq

/-- Bar chart artifact of the meal plotter: its path and the per-day
buckets (calendar day, event count) in ascending day order. -/
structure MealOut where
  path : String
  counts : List (Int × Nat)
deriving DecidableEq

/-- Preferred value-column names of plot_stuhlgang (source lines 120-123). -/
def stuhlgangPref : List String :=
  ["konsistenz", "bristol", "typ", "score", "wert", "level", "intensitaet",
   "intensität", "staerke", "stärke"]

/-- Preferred value-column names of plot_stimmung (source line 146). -/
def stimmungPref : List String :=
  ["wert", "score", "level"]

/-- Preferred value-column names of plot_symptome (source lines 170-173). -/
def symptomePref : List String :=
  ["intensitaet", "intensität", "staerke", "stärke", "wert", "score", "level",
   "schmerz", "severity"]

/-- Embedding of plot_stuhlgang (source lines 114-137).  Result: the
artifact (none when absent), the list of written files, and the caller's
frame after the call. -/
def plot_stuhlgang (df : DataFrame) (user_id : String) :
    Option ChartOut × List String × DataFrame :=
  if df.empty then (none, [], df)
  else
    let r := detect_time_col df
    let tcol := r.1
    let df1 := r.2
    let vcol := detect_value_col df1 stuhlgangPref
    if falsyName tcol || falsyName vcol then (none, [], df1)
    else
      let t := tcol.getD ""
      let v := vcol.getD ""
      let out := "output/stuhlgang_scatter_" ++ user_id ++ ".png"
      (some { path := out, xs := df1.col t, ys := df1.col v }, [out], df1)

/-- Embedding of plot_stimmung (source lines 140-161): rows are sorted
ascending by the time column before plotting. -/
def plot_stimmung (df : DataFrame) (user_id : String) :
    Option ChartOut × List String × DataFrame :=
  if df.empty then (none, [], df)
  else
    let r := detect_time_col df
    let tcol := r.1
    let df1 := r.2
    let vcol := detect_value_col df1 stimmungPref
    if falsyName tcol || falsyName vcol then (none, [], df1)
    else
      let t := tcol.getD ""
      let v := vcol.getD ""
      let df2 := df1.sortValues t
      let out := "output/stimmung_line_" ++ user_id ++ ".png"
      (some { path := out, xs := df2.col t, ys := df2.col v }, [out], df1)

/-- Embedding of plot_symptome (source lines 164-187). -/
def plot_symptome (df : DataFrame) (user_id : String) :
    Option ChartOut × List String × DataFrame :=
  if df.empty then (none, [], df)
  else
    let r := detect_time_col df
    let tcol := r.1
    let df1 := r.2
    let vcol := detect_value_col df1 symptomePref
    if falsyName tcol || falsyName vcol then (none, [], df1)
    else
      let t := tcol.getD ""
      let v := vcol.getD ""
      let out := "output/symptome_scatter_" ++ user_id ++ ".png"
      (some { path := out, xs := df1.col t, ys := df1.col v }, [out], df1)

/-- Calendar day of an instant (truncation to day granularity, modelling
the dt.date accessor). -/
def dayOf (t : Int) : Int :=
  Int.fdiv t 86400

/-- Calendar day of a datetime cell (defined on the all-datetime column
that remains after coercion and dropna). -/
def dateCell (v : Val) : Int :=
  match v with
  | .dt t => dayOf t
  | _ => 0

/-- Calendar day that a cell's time value parses to, if any. -/
def parseDate (v : Val) : Option Int :=
  (parseVal v).map dayOf

/-- Comparison used to order group keys. -/
def intLe (a b : Int) : Bool :=
  decide (a ≤ b)

/-- Embedding of df.groupby(key).size(): the distinct keys in ascending
order, each with its number of occurrences. -/
def groupCounts (ds : List Int) : List (Int × Nat) :=
  (sortLe intLe ds.dedup).map (fun d => (d, ds.count d))

/-- Embedding of plot_mahlzeit (source lines 190-230): the caller's frame
is overwritten at the time column with coerced datetime values, rows with
null time are dropped from a copy, and the copy is grouped by calendar
day. -/
def plot_mahlzeit (df : DataFrame) (user_id : String) :
    Option MealOut × List String × DataFrame :=
  if df.empty then (none, [], df)
  else
    let r := detect_time_col df
    let tcolOpt := r.1
    let df1 := r.2
    if falsyName tcolOpt then (none, [], df1)
    else
      let tcol := tcolOpt.getD ""
      let df2 := df1.setCol tcol (coerceCol (df1.col tcol))
      let df3 := df2.dropnaAt tcol
      let dates := (df3.col tcol).map dateCell
      let counts := groupCounts dates
      if counts.isEmpty then (none, [], df2)
      else
        let out := "output/mahlzeiten_bars_" ++ user_id ++ ".png"
        (some { path := out, counts := counts }, [out], df2)

/-- Embedding of generate_analytics_for_user (source lines 236-255).  The
first component is the returned mapping; the second records the store
paths read, in order. -/
def generate_analytics_for_user (db : Store) (user_id : String) :
    List (String × Option String) × List String :=
  let f1 := fetch_for_user db ("stuhlgaenge") user_id
  let f2 := fetch_for_user db ("stimmungen") user_id
  let f3 := fetch_for_user db ("symptoms") user_id
  let f4 := fetch_for_user db ("mahlzeiten") user_id
  ([("stuhlgang", ((plot_stuhlgang f1.1 user_id).1).map ChartOut.path),
    ("stimmung", ((plot_stimmung f2.1 user_id).1).map ChartOut.path),
    ("symptome", ((plot_symptome f3.1 user_id).1).map ChartOut.path),
    ("mahlzeit", ((plot_mahlzeit f4.1 user_id).1).map MealOut.path)],
   [f1.2, f2.2, f3.2, f4.2])

/-- Pages of the export document (export_pdf.py). -/
inductive Page : Type where
  | title : String → Page
  | chart : String → String → Page
  | noData : String → Page
  | grid : String → List String → List (List Val) → Page
deriving DecidableEq

/-- Raw-data collection list of the exporter (export_pdf.py line 38). -/
def collections : List String :=
  ["stuhlgaenge", "stimmungen", "symptoms", "mahlzeiten"]

/-- Raw-data page of one collection (export_pdf.py lines 83-105): a
single no-data line for an empty table, else a grid of the first 30 rows
with the column names as header. -/
def dataPage (c : String) (df : DataFrame) : Page :=
  if df.empty then Page.noData c
  else Page.grid c df.colNames (df.rows.take 30)

/-- Embedding of generate_export_pdf_for_user (export_pdf.py lines
13-108): the document path and its pages in order.  Artifact paths
returned by the orchestrator were written in the same call, so the
existence test on them reduces to Python truthiness. -/
def generate_export_pdf_for_user (db : Store) (user_id : String) :
    String × List Page :=
  let results := (generate_analytics_for_user db user_id).1
  let plot_paths := results.filterMap (fun kv =>
    match kv.2 with
    | some p => if p.isEmpty then none else some (kv.1, p)
    | none => none)
  let db_data := collections.map (fun c => (c, (fetch_for_user db c user_id).1))
  let pages :=
    Page.title user_id ::
      (plot_paths.map (fun np => Page.chart np.1 np.2) ++
        db_data.map (fun cd => dataPage cd.1 cd.2))
  ("output/export_" ++ user_id ++ ".pdf", pages)

/-
Specification-side reference definitions.  These follow the wording of the
specification (they are compared with the source embeddings above), written
with find and findSome over the column list.
-/

/-- Time-detection policy as the specification words it: first column of a
datetime dtype; else, for each name fragment in order, the first column
whose lowercased name contains the fragment, provided its values parse. -/
def detect_time_spec (df : DataFrame) : Option String :=
  match df.colNames.find? (fun c => dtypeDatetime (df.col c)) with
  | some c => some c
  | none =>
    name_order.findSome? (fun key =>
      match df.colNames.find? (fun c => strContains (lowerStr c) key) with
      | some c => if (columnParse (df.col c)).isSome then some c else none
      | none => none)

/-- Value-detection policy as claimed: for the preferred names in order,
the first column whose lowercased name equals the name AND whose values
are numeric; else the first numeric column; else none. -/
def detect_value_spec_claimed (df : DataFrame) (preference : List String) : Option String :=
  match preference.findSome? (fun name =>
      df.colNames.find? (fun c => name == lowerStr c && dtypeNumeric (df.col c))) with
  | some c => some c
  | none => (df.colNames.filter (fun c => dtypeNumeric (df.col c))).head?

/-- Value-detection policy as amended: for the preferred names in order,
only the first column whose lowercased name equals the name is examined,
and it is selected exactly when its values are numeric; else the first
numeric column; else none. -/
def detect_value_spec_amended (df : DataFrame) (preference : List String) : Option String :=
  match preference.findSome? (fun name =>
      match df.colNames.find? (fun c => name == lowerStr c) with
      | some c => if dtypeNumeric (df.col c) then some c else none
      | none => none) with
  | some c => some c
  | none => (df.colNames.filter (fun c => dtypeNumeric (df.col c))).head?

/-- Renaming of the columns of a frame; the cell data is unchanged. -/
def DataFrame.renameCols (df : DataFrame) (f : String → String) : DataFrame :=
  { colNames := df.colNames.map f, rows := df.rows }

/-
Concrete fixtures used to witness the theorems below.
-/

/-- Store with no documents at all. -/
def dbEmpty : Store := fun _ _ => []

/-- Frame whose first name-matching column is non-numeric while a later
column with the same lowercased name is numeric. -/
def exDfC3 : DataFrame :=
  { colNames := ["Wert", "other", "WERT"],
    rows := [[Val.str ("x"), Val.num 1, Val.num 2]] }

/-- Two-row mood frame with datetime cells out of storage order. -/
def exDfMood : DataFrame :=
  { colNames := ["zeit", "wert"],
    rows := [[Val.dt 5, Val.num 1], [Val.dt 3, Val.num 2]] }

/-- Meal frame with a name-detected time column of parsable strings
spanning two calendar days, plus a null entry. -/
def exDfMeal : DataFrame :=
  { colNames := ["mahlzeitZeitpunkt", "id"],
    rows := [[Val.dtstr 10, Val.str ("a")],
             [Val.dtstr 86405, Val.str ("b")],
             [Val.null, Val.str ("c")],
             [Val.dtstr 20, Val.str ("d")]] }

/-- Frame with one unusable column (neither time-like nor numeric). -/
def exDfPlain : DataFrame :=
  { colNames := ["a"], rows := [[Val.str ("x")]] }

/-- Frame whose single column is time-parsable by name heuristic. -/
def exDfZeit : DataFrame :=
  { colNames := ["zeit"], rows := [[Val.dtstr 7]] }

/-- Store holding two documents, one of which carries its own id field. -/
def dbDocs : Store := fun u s =>
  if u == "u2" && s == "mahlzeiten" then
    [{ id := "d1", fields := [("mahlzeitZeitpunkt", Val.ts 10), ("id", Val.str ("evil"))] },
     { id := "d2", fields := [("x", Val.num 3)] }]
  else []

/-
Supporting lemmas about the frame operations.
-/

theorem colIdx_spec {df : DataFrame} {c : String} {i : Nat} (h : df.colIdx c = some i) :
    i < df.colNames.length ∧ df.colNames.getD i "" = c := by
  rw [DataFrame.colIdx, List.findIdx?_eq_some_iff_getElem] at h
  obtain ⟨hl, hp, _⟩ := h
  refine ⟨hl, ?_⟩
  have := of_decide_eq_true (by simpa using hp)
  simp [List.getD_eq_getElem?_getD, List.getElem?_eq_getElem hl, this]

theorem colIdx_isSome_of_mem {df : DataFrame} {c : String} (h : c ∈ df.colNames) :
    ∃ i, df.colIdx c = some i := by
  have : (df.colNames.findIdx? (fun n => n == c)).isSome = true := by
    rw [List.findIdx?_isSome, List.any_eq_true]
    exact ⟨c, h, by simp⟩
  exact Option.isSome_iff_exists.mp this

theorem col_length {df : DataFrame} {c : String} {i : Nat} (h : df.colIdx c = some i) :
    (df.col c).length = df.rows.length := by
  simp [DataFrame.col, h]

theorem wfB_row_length {df : DataFrame} (hwf : df.wfB = true) :
    ∀ r ∈ df.rows, r.length = df.colNames.length := by
  intro r hr
  have := List.all_eq_true.mp hwf r hr
  simpa using this

theorem zipWith_set_map_getD_self (i : Nat) :
    ∀ (rows : List (List Val)) (vs : List Val),
      vs.length = rows.length → (∀ r ∈ rows, i < r.length) →
      (rows.zipWith (fun r v => r.set i v) vs).map (fun r => r.getD i Val.null) = vs := by
  intro rows
  induction rows with
  | nil =>
    intro vs hlen _
    simp at hlen
    simp [hlen]
  | cons r rs ih =>
    intro vs hlen hwf
    cases vs with
    | nil => simp at hlen
    | cons v vs' =>
      simp only [List.zipWith_cons_cons, List.map_cons]
      have hi : i < r.length := hwf r (by simp)
      rw [List.getD_eq_getElem?_getD, List.getElem?_set_self hi]
      simp only [Option.getD_some]
      rw [ih vs' (by simpa using hlen) (fun x hx => hwf x (by simp [hx]))]

theorem zipWith_set_map_getD_ne (i j : Nat) (hne : i ≠ j) :
    ∀ (rows : List (List Val)) (vs : List Val),
      vs.length = rows.length →
      (rows.zipWith (fun r v => r.set i v) vs).map (fun r => r.getD j Val.null) =
        rows.map (fun r => r.getD j Val.null) := by
  intro rows
  induction rows with
  | nil => intro vs _; simp
  | cons r rs ih =>
    intro vs hlen
    cases vs with
    | nil => simp at hlen
    | cons v vs' =>
      simp only [List.zipWith_cons_cons, List.map_cons]
      rw [List.getD_eq_getElem?_getD, List.getElem?_set_ne hne, ← List.getD_eq_getElem?_getD]
      rw [ih vs' (by simpa using hlen)]

theorem zipWith_set_length_mem (i : Nat) (n : Nat) :
    ∀ (rows : List (List Val)) (vs : List Val),
      (∀ r ∈ rows, r.length = n) →
      ∀ r ∈ rows.zipWith (fun r v => r.set i v) vs, r.length = n := by
  intro rows
  induction rows with
  | nil => intro vs _; simp
  | cons r rs ih =>
    intro vs h
    cases vs with
    | nil => simp
    | cons v vs' =>
      intro x hx
      simp only [List.zipWith_cons_cons, List.mem_cons] at hx
      rcases hx with hx | hx
      · rw [hx, List.length_set]
        exact h r (by simp)
      · exact ih vs' (fun y hy => h y (by simp [hy])) x hx

theorem setCol_colNames {df : DataFrame} {c : String} {vs : List Val} {i : Nat}
    (h : df.colIdx c = some i) : (df.setCol c vs).colNames = df.colNames := by
  simp [DataFrame.setCol, h]

theorem setCol_colIdx {df : DataFrame} {c c' : String} {vs : List Val} {i : Nat}
    (h : df.colIdx c = some i) : (df.setCol c vs).colIdx c' = df.colIdx c' := by
  simp [DataFrame.colIdx, setCol_colNames h]

theorem setCol_rows {df : DataFrame} {c : String} {vs : List Val} {i : Nat}
    (h : df.colIdx c = some i) :
    (df.setCol c vs).rows = df.rows.zipWith (fun r v => r.set i v) vs := by
  simp [DataFrame.setCol, h]

theorem setCol_col_self {df : DataFrame} {c : String} {vs : List Val} {i : Nat}
    (h : df.colIdx c = some i) (hlen : vs.length = df.rows.length) (hwf : df.wfB = true) :
    (df.setCol c vs).col c = vs := by
  have hidx : (df.setCol c vs).colIdx c = some i := by rw [setCol_colIdx h, h]
  rw [DataFrame.col, hidx, setCol_rows h]
  refine zipWith_set_map_getD_self i df.rows vs hlen ?_
  intro r hr
  rw [wfB_row_length hwf r hr]
  exact (colIdx_spec h).1

theorem setCol_col_ne {df : DataFrame} {c c' : String} {vs : List Val} {i : Nat}
    (h : df.colIdx c = some i) (hlen : vs.length = df.rows.length) (hne : c' ≠ c) :
    (df.setCol c vs).col c' = df.col c' := by
  rw [DataFrame.col, DataFrame.col, setCol_colIdx h]
  cases hj : df.colIdx c' with
  | none => rfl
  | some j =>
    have hij : i ≠ j := by
      intro hij
      apply hne
      have h1 := (colIdx_spec h).2
      have h2 := (colIdx_spec hj).2
      rw [← h1, ← h2, hij]
    rw [setCol_rows h]
    exact zipWith_set_map_getD_ne i j hij df.rows vs hlen

theorem setCol_wfB {df : DataFrame} {c : String} {vs : List Val} {i : Nat}
    (h : df.colIdx c = some i) (hwf : df.wfB = true) : (df.setCol c vs).wfB = true := by
  rw [DataFrame.wfB, List.all_eq_true]
  intro r hr
  rw [setCol_rows h] at hr
  rw [setCol_colNames h]
  have := zipWith_set_length_mem i df.colNames.length df.rows vs (wfB_row_length hwf) r hr
  simp [this]

theorem columnParse_length : ∀ {vs ws : List Val}, columnParse vs = some ws →
    ws.length = vs.length := by
  intro vs
  induction vs with
  | nil => intro ws h; simp [columnParse] at h; simp [← h]
  | cons v vs' ih =>
    intro ws h
    rw [columnParse] at h
    cases hp : parseCell v with
    | none => rw [hp] at h; simp at h
    | some w =>
      rw [hp] at h
      cases hq : columnParse vs' with
      | none => rw [hq] at h; simp at h
      | some ws' =>
        rw [hq] at h
        simp only [Option.some.injEq] at h
        simp [← h, ih hq]

theorem parseCell_parseVal {v w : Val} (h : parseCell v = some w) :
    parseVal w = parseVal v := by
  cases v <;> simp [parseCell, parseVal] at h <;> simp [← h, parseVal]

theorem columnParse_parseVal : ∀ {vs ws : List Val}, columnParse vs = some ws →
    ws.map parseVal = vs.map parseVal := by
  intro vs
  induction vs with
  | nil => intro ws h; simp [columnParse] at h; simp [← h]
  | cons v vs' ih =>
    intro ws h
    rw [columnParse] at h
    cases hp : parseCell v with
    | none => rw [hp] at h; simp at h
    | some w =>
      rw [hp] at h
      cases hq : columnParse vs' with
      | none => rw [hq] at h; simp at h
      | some ws' =>
        rw [hq] at h
        simp only [Option.some.injEq] at h
        simp [← h, ih hq, parseCell_parseVal hp]

theorem detectByName_colNames (df : DataFrame) :
    ∀ keys, ((detectByName df keys).2).colNames = df.colNames := by
  intro keys
  induction keys with
  | nil => rfl
  | cons key rest ih =>
    simp only [detectByName]
    cases hcand : df.colNames.filter (fun c => strContains (lowerStr c) key) with
    | nil => exact ih
    | cons c cs =>
      dsimp only
      cases hp : columnParse (df.col c) with
      | none => exact ih
      | some ws =>
        dsimp only
        have hmem : c ∈ df.colNames :=
          List.mem_of_mem_filter (by rw [hcand]; exact List.mem_cons_self c cs)
        obtain ⟨i, hi⟩ := colIdx_isSome_of_mem hmem
        exact setCol_colNames hi

theorem detectByName_none (df : DataFrame) :
    ∀ keys, (detectByName df keys).1 = none → (detectByName df keys).2 = df := by
  intro keys
  induction keys with
  | nil => intro _; rfl
  | cons key rest ih =>
    simp only [detectByName]
    cases hcand : df.colNames.filter (fun c => strContains (lowerStr c) key) with
    | nil => exact ih
    | cons c cs =>
      dsimp only
      cases hp : columnParse (df.col c) with
      | none => exact ih
      | some ws => intro hcon; simp at hcon

theorem detectByName_some (df : DataFrame) :
    ∀ keys c df', detectByName df keys = (some c, df') →
      c ∈ df.colNames ∧ ∃ ws, columnParse (df.col c) = some ws ∧ df' = df.setCol c ws := by
  intro keys
  induction keys with
  | nil => intro c df' h; simp [detectByName] at h
  | cons key rest ih =>
    intro c df' h
    simp only [detectByName] at h
    cases hcand : df.colNames.filter (fun x => strContains (lowerStr x) key) with
    | nil =>
      rw [hcand] at h
      exact ih c df' h
    | cons c0 cs =>
      rw [hcand] at h
      dsimp only at h
      cases hp : columnParse (df.col c0) with
      | none =>
        rw [hp] at h
        exact ih c df' h
      | some ws =>
        rw [hp] at h
        simp only [Prod.mk.injEq, Option.some.injEq] at h
        obtain ⟨rfl, rfl⟩ := h
        have hmem : c0 ∈ df.colNames :=
          List.mem_of_mem_filter (by rw [hcand]; exact List.mem_cons_self c0 cs)
        exact ⟨hmem, ws, hp, rfl⟩

theorem detect_time_step1 {df : DataFrame} {c : String} {cs : List String}
    (h1 : df.colNames.filter (fun x => dtypeDatetime (df.col x)) = c :: cs) :
    detect_time_col df = (some c, df) := by
  rw [detect_time_col.eq_def, h1]

theorem detect_time_step2 {df : DataFrame}
    (h1 : df.colNames.filter (fun x => dtypeDatetime (df.col x)) = []) :
    detect_time_col df = detectByName df name_order := by
  rw [detect_time_col.eq_def, h1]

theorem detect_time_colNames (df : DataFrame) :
    ((detect_time_col df).2).colNames = df.colNames := by
  cases h1 : df.colNames.filter (fun x => dtypeDatetime (df.col x)) with
  | cons c cs => rw [detect_time_step1 h1]
  | nil => rw [detect_time_step2 h1]; exact detectByName_colNames df name_order

theorem detect_time_mem {df : DataFrame} {c : String}
    (h : (detect_time_col df).1 = some c) : c ∈ df.colNames := by
  cases h1 : df.colNames.filter (fun x => dtypeDatetime (df.col x)) with
  | cons c0 cs =>
    rw [detect_time_step1 h1] at h
    simp only [Option.some.injEq] at h
    subst h
    exact List.mem_of_mem_filter (by rw [h1]; exact List.mem_cons_self c0 cs)
  | nil =>
    rw [detect_time_step2 h1] at h
    have := detectByName_some df name_order c (detectByName df name_order).2
      (by rw [← h])
    exact this.1

theorem detect_time_frame {df : DataFrame} {c : String}
    (h1 : df.colNames.filter (fun x => dtypeDatetime (df.col x)) = [])
    (h : (detect_time_col df).1 = some c) :
    ∃ ws, columnParse (df.col c) = some ws ∧ (detect_time_col df).2 = df.setCol c ws := by
  rw [detect_time_step2 h1] at h ⊢
  have := detectByName_some df name_order c (detectByName df name_order).2 (by rw [← h])
  exact this.2

theorem detect_time_frame_eq {df : DataFrame} {c : String} {cs : List String}
    (h1 : df.colNames.filter (fun x => dtypeDatetime (df.col x)) = c :: cs) :
    (detect_time_col df).2 = df := by
  rw [detect_time_step1 h1]

theorem detect_time_wfB {df : DataFrame} (hwf : df.wfB = true) :
    ((detect_time_col df).2).wfB = true := by
  cases h1 : df.colNames.filter (fun x => dtypeDatetime (df.col x)) with
  | cons c cs => rw [detect_time_frame_eq h1]; exact hwf
  | nil =>
    rw [detect_time_step2 h1]
    cases h : (detectByName df name_order).1 with
    | none => rw [detectByName_none df name_order h]; exact hwf
    | some c =>
      have := detectByName_some df name_order c (detectByName df name_order).2 (by rw [← h])
      obtain ⟨hmem, ws, hp, hfr⟩ := this
      obtain ⟨i, hi⟩ := colIdx_isSome_of_mem hmem
      rw [hfr]
      exact setCol_wfB hi hwf

theorem detect_time_col_self {df : DataFrame} {c : String} (hwf : df.wfB = true)
    (h1 : df.colNames.filter (fun x => dtypeDatetime (df.col x)) = [])
    (h : (detect_time_col df).1 = some c) :
    ∃ ws, columnParse (df.col c) = some ws ∧ ((detect_time_col df).2).col c = ws := by
  obtain ⟨ws, hp, hfr⟩ := detect_time_frame h1 h
  obtain ⟨i, hi⟩ := colIdx_isSome_of_mem (detect_time_mem h)
  refine ⟨ws, hp, ?_⟩
  rw [hfr]
  exact setCol_col_self hi (by rw [columnParse_length hp]; exact col_length hi) hwf

theorem detect_time_parse {df : DataFrame} {c : String} (hwf : df.wfB = true)
    (h : (detect_time_col df).1 = some c) :
    (((detect_time_col df).2).col c).map parseVal = (df.col c).map parseVal := by
  cases h1 : df.colNames.filter (fun x => dtypeDatetime (df.col x)) with
  | cons c0 cs => rw [detect_time_frame_eq h1]
  | nil =>
    obtain ⟨ws, hp, hcol⟩ := detect_time_col_self hwf h1 h
    rw [hcol]
    exact columnParse_parseVal hp

theorem detect_time_col_ne {df : DataFrame} {c c' : String}
    (h : (detect_time_col df).1 = some c) (hne : c' ≠ c) :
    ((detect_time_col df).2).col c' = df.col c' := by
  cases h1 : df.colNames.filter (fun x => dtypeDatetime (df.col x)) with
  | cons c0 cs => rw [detect_time_frame_eq h1]
  | nil =>
    obtain ⟨ws, hp, hfr⟩ := detect_time_frame h1 h
    obtain ⟨i, hi⟩ := colIdx_isSome_of_mem (detect_time_mem h)
    rw [hfr]
    exact setCol_col_ne hi (by rw [columnParse_length hp]; exact col_length hi) hne

theorem insertLe_perm {α : Type} (le : α → α → Bool) (a : α) :
    ∀ l : List α, List.Perm (insertLe le a l) (a :: l) := by
  intro l
  induction l with
  | nil => exact List.Perm.refl _
  | cons b bs ih =>
    rw [insertLe]
    cases hle : le a b with
    | true => simp
    | false =>
      simp only [Bool.false_eq_true, if_false]
      exact (ih.cons b).trans (List.Perm.swap a b bs)

theorem sortLe_perm {α : Type} (le : α → α → Bool) :
    ∀ l : List α, List.Perm (sortLe le l) l := by
  intro l
  induction l with
  | nil => exact List.Perm.refl _
  | cons a as ih =>
    rw [sortLe]
    exact (insertLe_perm le a (sortLe le as)).trans (ih.cons a)

theorem mem_insertLe {α : Type} {le : α → α → Bool} {a x : α} {l : List α}
    (h : x ∈ insertLe le a l) : x = a ∨ x ∈ l := by
  have := (insertLe_perm le a l).mem_iff.mp h
  simpa using this

theorem insertLe_pairwise {α : Type} {le : α → α → Bool}
    (htot : ∀ x y, le x y = true ∨ le y x = true)
    (htrans : ∀ x y z, le x y = true → le y z = true → le x z = true)
    (a : α) : ∀ l : List α, List.Pairwise (fun x y => le x y = true) l →
      List.Pairwise (fun x y => le x y = true) (insertLe le a l) := by
  intro l
  induction l with
  | nil => intro _; exact List.pairwise_cons.mpr ⟨by simp, List.Pairwise.nil⟩
  | cons b bs ih =>
    intro h
    obtain ⟨hb, hbs⟩ := List.pairwise_cons.mp h
    rw [insertLe]
    cases hle : le a b with
    | true =>
      simp only [if_true]
      refine List.pairwise_cons.mpr ⟨?_, h⟩
      intro y hy
      rcases List.mem_cons.mp hy with rfl | hy
      · exact hle
      · exact htrans a b y hle (hb y hy)
    | false =>
      simp only [Bool.false_eq_true, if_false]
      refine List.pairwise_cons.mpr ⟨?_, ih hbs⟩
      intro y hy
      rcases mem_insertLe hy with rfl | hy
      · rcases htot y b with hyb | hby
        · exact absurd hyb (by simp [hle])
        · exact hby
      · exact hb y hy

theorem sortLe_pairwise {α : Type} {le : α → α → Bool}
    (htot : ∀ x y, le x y = true ∨ le y x = true)
    (htrans : ∀ x y z, le x y = true → le y z = true → le x z = true) :
    ∀ l : List α, List.Pairwise (fun x y => le x y = true) (sortLe le l) := by
  intro l
  induction l with
  | nil => exact List.Pairwise.nil
  | cons a as ih => exact insertLe_pairwise htot htrans a (sortLe le as) ih

theorem pairLe_iff (p q : Nat × Int) :
    pairLe p q = true ↔ (p.1 < q.1 ∨ (p.1 = q.1 ∧ p.2 ≤ q.2)) := by
  simp [pairLe]

theorem pairLe_total (p q : Nat × Int) : pairLe p q = true ∨ pairLe q p = true := by
  rw [pairLe_iff, pairLe_iff]
  omega

theorem pairLe_trans (p q r : Nat × Int) (h1 : pairLe p q = true) (h2 : pairLe q r = true) :
    pairLe p r = true := by
  rw [pairLe_iff] at h1 h2 ⊢
  omega

theorem timeLe_total (a b : Val) : timeLe a b = true ∨ timeLe b a = true :=
  pairLe_total (timeKey a) (timeKey b)

theorem timeLe_trans (a b c : Val) (h1 : timeLe a b = true) (h2 : timeLe b c = true) :
    timeLe a c = true :=
  pairLe_trans (timeKey a) (timeKey b) (timeKey c) h1 h2

theorem rowLe_total (i : Nat) (a b : List Val) : rowLe i a b = true ∨ rowLe i b a = true :=
  timeLe_total (a.getD i Val.null) (b.getD i Val.null)

theorem rowLe_trans (i : Nat) (a b c : List Val) (h1 : rowLe i a b = true)
    (h2 : rowLe i b c = true) : rowLe i a c = true :=
  timeLe_trans (a.getD i Val.null) (b.getD i Val.null) (c.getD i Val.null) h1 h2

theorem sortValues_col_pairwise (df : DataFrame) (c : String) :
    List.Pairwise (fun a b => timeLe a b = true) ((df.sortValues c).col c) := by
  cases hi : df.colIdx c with
  | none =>
    have : (df.sortValues c).col c = [] := by
      rw [DataFrame.sortValues, hi, DataFrame.col, hi]
    rw [this]
    exact List.Pairwise.nil
  | some i =>
    have hidx : (df.sortValues c).colIdx c = some i := by
      rw [DataFrame.sortValues, hi]
      exact hi
    rw [DataFrame.col, hidx, DataFrame.sortValues, hi]
    have hp : List.Pairwise (fun x y => rowLe i x y = true) (sortLe (rowLe i) df.rows) :=
      sortLe_pairwise (rowLe_total i) (rowLe_trans i) df.rows
    exact List.Pairwise.map (fun r : List Val => r.getD i Val.null)
      (fun x y hxy => hxy) hp

/-
Supporting lemmas about grouping and coercion in plot_mahlzeit.
-/

theorem coerce_dates (vs : List Val) :
    ((coerceCol vs).filter (fun v => !v.isNull)).map dateCell = vs.filterMap parseDate := by
  induction vs with
  | nil => rfl
  | cons v vs' ih =>
    rw [show coerceCol (v :: vs') = coerceCell v :: coerceCol vs' from rfl]
    rw [List.filter_cons, List.filterMap_cons]
    cases hp : parseVal v with
    | some t =>
      have hc : coerceCell v = Val.dt t := by rw [coerceCell, hp]
      have hd : parseDate v = some (dayOf t) := by rw [parseDate, hp]; rfl
      rw [hc, hd]
      have hnn : (!(Val.dt t).isNull) = true := rfl
      simp only [hnn, if_true, List.map_cons, ih]
      rfl
    | none =>
      have hc : coerceCell v = Val.null := by rw [coerceCell, hp]
      have hd : parseDate v = none := by rw [parseDate, hp]; rfl
      rw [hc, hd]
      have hnn : (!(Val.null).isNull) = false := rfl
      simp only [hnn, if_false, Bool.false_eq_true, ih]

theorem count_filterMap_parseDate (d : Int) :
    ∀ vs : List Val, (vs.filterMap parseDate).count d =
      vs.countP (fun v => parseDate v == some d) := by
  intro vs
  induction vs with
  | nil => rfl
  | cons v vs' ih =>
    cases hp : parseDate v with
    | some e =>
      simp only [List.filterMap_cons, hp, List.countP_cons, List.count_cons, ih]
      by_cases he : e = d <;> simp [he]
    | none =>
      simp only [List.filterMap_cons, hp, List.countP_cons, ih]
      simp

theorem length_filterMap_parseDate :
    ∀ vs : List Val, (vs.filterMap parseDate).length =
      vs.countP (fun v => (parseVal v).isSome) := by
  intro vs
  induction vs with
  | nil => rfl
  | cons v vs' ih =>
    cases hp : parseVal v with
    | some t =>
      have hd : parseDate v = some (dayOf t) := by rw [parseDate, hp]; rfl
      simp [List.filterMap_cons, hd, List.countP_cons, ih, hp]
    | none =>
      have hd : parseDate v = none := by rw [parseDate, hp]; rfl
      simp [List.filterMap_cons, hd, List.countP_cons, ih, hp]

theorem groupCounts_mem {ds : List Int} {d : Int} {n : Nat}
    (h : (d, n) ∈ groupCounts ds) : n = ds.count d := by
  rw [groupCounts] at h
  obtain ⟨k, _, hk⟩ := List.mem_map.mp h
  have h1 : k = d := congrArg Prod.fst hk
  have h2 : ds.count k = n := congrArg Prod.snd hk
  rw [← h2, h1]

theorem groupCounts_keys (ds : List Int) :
    (groupCounts ds).map Prod.fst = sortLe intLe ds.dedup := by
  rw [groupCounts, List.map_map]
  have h1 : (Prod.fst ∘ fun d : Int => (d, ds.count d)) = id := rfl
  rw [h1, List.map_id]

theorem groupCounts_key_mem (ds : List Int) (d : Int) :
    d ∈ (groupCounts ds).map Prod.fst ↔ d ∈ ds := by
  rw [groupCounts_keys]
  rw [(sortLe_perm intLe ds.dedup).mem_iff]
  exact List.mem_dedup

theorem groupCounts_sum (ds : List Int) :
    ((groupCounts ds).map Prod.snd).sum = ds.length := by
  rw [groupCounts, List.map_map]
  have h1 : ((sortLe intLe ds.dedup).map (Prod.snd ∘ fun d => (d, ds.count d))).sum =
      (ds.dedup.map (Prod.snd ∘ fun d => (d, ds.count d))).sum :=
    ((sortLe_perm intLe ds.dedup).map _).sum_eq
  rw [h1]
  simpa using List.sum_map_count_dedup_eq_length ds

theorem groupCounts_isEmpty (ds : List Int) :
    (groupCounts ds).isEmpty = true ↔ ds = [] := by
  rw [groupCounts, List.isEmpty_iff, List.map_eq_nil_iff]
  constructor
  · intro h
    have hlen := (sortLe_perm intLe ds.dedup).length_eq
    rw [h] at hlen
    have hd : ds.dedup = [] := by
      cases hdd : ds.dedup with
      | nil => rfl
      | cons x xs => rw [hdd] at hlen; simp at hlen
    exact (List.dedup_eq_nil ds).mp hd
  · intro h
    subst h
    rfl

theorem dropnaAt_col {df : DataFrame} {c : String} {i : Nat} (h : df.colIdx c = some i) :
    (df.dropnaAt c).col c = (df.col c).filter (fun v => !v.isNull) := by
  have hidx : (df.dropnaAt c).colIdx c = some i := by
    rw [DataFrame.dropnaAt, h]
    exact h
  rw [DataFrame.col, hidx, DataFrame.dropnaAt, h, DataFrame.col, h]
  dsimp only
  exact (@List.filter_map (List Val) Val (fun v => !v.isNull)
    (fun r : List Val => r.getD i Val.null) df.rows).symm

theorem detect_time_mem1 {df : DataFrame} {tcol : String}
    (hdet : (detect_time_col df).1 = some tcol) :
    tcol ∈ ((detect_time_col df).2).colNames := by
  rw [detect_time_colNames]
  exact detect_time_mem hdet

theorem mahlzeit_dates {df : DataFrame} {tcol : String} (hwf : df.wfB = true)
    (hdet : (detect_time_col df).1 = some tcol) :
    (((((detect_time_col df).2).setCol tcol
        (coerceCol (((detect_time_col df).2).col tcol))).dropnaAt tcol).col tcol).map dateCell =
      (((detect_time_col df).2).col tcol).filterMap parseDate := by
  obtain ⟨i, hi⟩ := colIdx_isSome_of_mem (detect_time_mem1 hdet)
  have hwf1 : ((detect_time_col df).2).wfB = true := detect_time_wfB hwf
  have hlen : (coerceCol (((detect_time_col df).2).col tcol)).length =
      ((detect_time_col df).2).rows.length := by
    rw [coerceCol, List.length_map]
    exact col_length hi
  have h2 := setCol_col_self hi hlen hwf1
  have hi2 : (((detect_time_col df).2).setCol tcol
      (coerceCol (((detect_time_col df).2).col tcol))).colIdx tcol = some i := by
    rw [setCol_colIdx hi]
    exact hi
  rw [dropnaAt_col hi2, h2, coerce_dates]

theorem plot_mahlzeit_eval {df : DataFrame} {tcol : String} (uid : String)
    (hwf : df.wfB = true) (hne : df.empty = false)
    (hdet : (detect_time_col df).1 = some tcol) (hfal : tcol.isEmpty = false) :
    plot_mahlzeit df uid =
      (if (groupCounts ((((detect_time_col df).2).col tcol).filterMap parseDate)).isEmpty
         then none
         else some { path := "output/mahlzeiten_bars_" ++ uid ++ ".png",
                     counts :=
                       groupCounts ((((detect_time_col df).2).col tcol).filterMap parseDate) },
       if (groupCounts ((((detect_time_col df).2).col tcol).filterMap parseDate)).isEmpty
         then ([] : List String)
         else ["output/mahlzeiten_bars_" ++ uid ++ ".png"],
       ((detect_time_col df).2).setCol tcol (coerceCol (((detect_time_col df).2).col tcol))) := by
  have hdates := mahlzeit_dates hwf hdet
  simp only [plot_mahlzeit, hne, Bool.false_eq_true, if_false, hdet, falsyName, hfal,
    Option.getD_some, hdates]
  by_cases hgc :
      (groupCounts (List.filterMap parseDate (((detect_time_col df).2).col tcol))).isEmpty = true
  · simp only [hgc, if_true]
  · simp only [hgc, Bool.false_eq_true, if_false]

/-
Supporting lemmas about the fetch layer.
-/

theorem lookup_map_value (g : Val → Val) (k : String) :
    ∀ l : List (String × Val),
      List.lookup k (l.map (fun kv => (kv.1, g kv.2))) = (List.lookup k l).map g := by
  intro l
  induction l with
  | nil => rfl
  | cons kv l' ih =>
    obtain ⟨k', v'⟩ := kv
    simp only [List.map_cons, List.lookup]
    cases hk : k == k' with
    | true => rfl
    | false => exact ih

theorem lookup_replace (k : String) (v : Val) :
    ∀ l : List (String × Val), l.any (fun kv => kv.1 == k) = true →
      List.lookup k (l.map (fun kv => if kv.1 == k then (kv.1, v) else kv)) = some v := by
  intro l
  induction l with
  | nil => intro h; simp at h
  | cons kv l' ih =>
    intro h
    obtain ⟨k', v'⟩ := kv
    rw [List.map_cons]
    cases hk : (k', v').1 == k with
    | true =>
      have hk' : k' = k := by simpa using hk
      simp only [hk, if_true]
      simp only [List.lookup]
      have : (k == k') = true := by simp [hk']
      rw [this]
    | false =>
      have hk2 : (k == k') = false := by
        simp only [beq_eq_false_iff_ne, ne_eq]
        intro he
        rw [beq_eq_false_iff_ne] at hk
        exact hk (by simpa using he.symm)
      simp only [hk, Bool.false_eq_true, if_false, List.lookup, hk2]
      apply ih
      rw [List.any_cons, hk] at h
      simpa using h

theorem lookup_append_self (k : String) (v : Val) :
    ∀ l : List (String × Val), l.any (fun kv => kv.1 == k) = false →
      List.lookup k (l ++ [(k, v)]) = some v := by
  intro l
  induction l with
  | nil => simp [List.lookup]
  | cons kv l' ih =>
    intro h
    obtain ⟨k', v'⟩ := kv
    rw [List.any_cons] at h
    have h1 : ((k', v').1 == k) = false := by
      cases hx : (k', v').1 == k
      · rfl
      · rw [hx] at h; simp at h
    have h2 : l'.any (fun kv => kv.1 == k) = false := by
      cases hx : l'.any (fun kv => kv.1 == k)
      · rfl
      · rw [hx] at h; simp at h
    have hkk : (k == k') = false := by
      simp only [beq_eq_false_iff_ne, ne_eq] at h1 ⊢
      exact fun he => h1 (by simpa using he.symm)
    rw [List.cons_append]
    simp only [List.lookup, hkk]
    exact ih h2

theorem dictSet_lookup (l : List (String × Val)) (k : String) (v : Val) :
    List.lookup k (dictSet l k v) = some v := by
  rw [dictSet]
  cases h : l.any (fun kv => kv.1 == k) with
  | true => simp only [if_true]; exact lookup_replace k v l h
  | false => simp only [Bool.false_eq_true, if_false]; exact lookup_append_self k v l h

theorem dictSet_key_mem (l : List (String × Val)) (k : String) (v : Val) :
    k ∈ (dictSet l k v).map Prod.fst := by
  rw [dictSet]
  cases h : l.any (fun kv => kv.1 == k) with
  | true =>
    simp only [if_true]
    rw [List.any_eq_true] at h
    obtain ⟨kv, hmem, hk⟩ := h
    have hk' : kv.1 = k := by simpa using hk
    rw [List.mem_map]
    refine ⟨if kv.1 == k then (kv.1, v) else kv, List.mem_map.mpr ⟨kv, hmem, rfl⟩, ?_⟩
    simp [hk']
  | false =>
    simp only [Bool.false_eq_true, if_false]
    rw [List.map_append]
    exact List.mem_append.mpr (Or.inr (by simp))

theorem convert_keys (r : List (String × Val)) :
    (convert_firestore_timestamps r).map Prod.fst = r.map Prod.fst := by
  rw [convert_firestore_timestamps, List.map_map]
  rfl

theorem convert_lookup (r : List (String × Val)) (k : String) :
    List.lookup k (convert_firestore_timestamps r) = (List.lookup k r).map convertTs :=
  lookup_map_value convertTs k r

theorem rowVal_id (d : Doc) :
    lookupVal (convert_firestore_timestamps (dictSet d.fields ("id") (Val.str d.id))) ("id") =
      Val.str d.id := by
  rw [lookupVal, convert_lookup, dictSet_lookup]
  rfl

theorem rowKeys_id (d : Doc) :
    ("id") ∈ (convert_firestore_timestamps (dictSet d.fields ("id") (Val.str d.id))).map
      Prod.fst := by
  rw [convert_keys]
  exact dictSet_key_mem d.fields ("id") (Val.str d.id)

theorem addKeys_mono (x : String) :
    ∀ (r : List (String × Val)) (acc : List String), x ∈ acc → x ∈ addKeys acc r := by
  intro r
  induction r with
  | nil => intro acc h; exact h
  | cons kv r' ih =>
    intro acc h
    rw [addKeys, List.foldl_cons]
    rw [show (List.foldl (fun a kv => if a.contains kv.1 then a else a ++ [kv.1])
        (if acc.contains kv.1 then acc else acc ++ [kv.1]) r') =
        addKeys (if acc.contains kv.1 then acc else acc ++ [kv.1]) r' from rfl]
    apply ih
    cases hc : acc.contains kv.1 with
    | true => simpa [hc] using h
    | false => simp only [hc, Bool.false_eq_true, if_false]; exact List.mem_append.mpr (Or.inl h)

theorem addKeys_adds (k : String) :
    ∀ (r : List (String × Val)) (acc : List String),
      k ∈ r.map Prod.fst → k ∈ addKeys acc r := by
  intro r
  induction r with
  | nil => intro acc h; simp at h
  | cons kv r' ih =>
    intro acc h
    rw [List.map_cons, List.mem_cons] at h
    rw [addKeys, List.foldl_cons]
    rw [show (List.foldl (fun a kv => if a.contains kv.1 then a else a ++ [kv.1])
        (if acc.contains kv.1 then acc else acc ++ [kv.1]) r') =
        addKeys (if acc.contains kv.1 then acc else acc ++ [kv.1]) r' from rfl]
    rcases h with h1 | h
    · rw [h1]
      apply addKeys_mono
      cases hc : acc.contains kv.1 with
      | true =>
        simp only [hc, if_true]
        exact List.mem_of_elem_eq_true hc
      | false => simp only [hc, Bool.false_eq_true, if_false]; simp
    · exact ih _ h

theorem unionKeys_mono (x : String) :
    ∀ (rows : List (List (String × Val))) (acc : List String),
      x ∈ acc → x ∈ rows.foldl addKeys acc := by
  intro rows
  induction rows with
  | nil => intro acc h; exact h
  | cons r rows' ih =>
    intro acc h
    rw [List.foldl_cons]
    exact ih _ (addKeys_mono x r acc h)

theorem unionKeys_adds {k : String} :
    ∀ (rows : List (List (String × Val))) (r : List (String × Val)),
      r ∈ rows → k ∈ r.map Prod.fst →
      ∀ acc : List String, k ∈ rows.foldl addKeys acc := by
  intro rows
  induction rows with
  | nil => intro r hr; cases hr
  | cons r0 rows' ih =>
    intro r hr hk acc
    rw [List.foldl_cons]
    rcases List.mem_cons.mp hr with h1 | hr'
    · exact unionKeys_mono k rows' _ (addKeys_adds k r0 acc (h1 ▸ hk))
    · exact ih r hr' hk _

theorem dfFromRows_col_id (docs : List Doc) :
    (dfFromRows (docs.map (fun d =>
        convert_firestore_timestamps (dictSet d.fields ("id") (Val.str d.id))))).col ("id") =
      docs.map (fun d => Val.str d.id) := by
  cases docs with
  | nil => rfl
  | cons d0 ds =>
    have hmem : ("id") ∈ (dfFromRows ((d0 :: ds).map (fun d =>
        convert_firestore_timestamps (dictSet d.fields ("id") (Val.str d.id))))).colNames := by
      show ("id") ∈ unionKeys _
      exact unionKeys_adds _ _ (List.mem_map.mpr ⟨d0, List.mem_cons_self d0 ds, rfl⟩)
        (rowKeys_id d0) []
    obtain ⟨i, hi⟩ := colIdx_isSome_of_mem hmem
    have hlt := (colIdx_spec hi).1
    have hid := (colIdx_spec hi).2
    rw [DataFrame.col, hi]
    have hgd : ∀ r : List (String × Val),
        (((dfFromRows ((d0 :: ds).map (fun d =>
            convert_firestore_timestamps
              (dictSet d.fields ("id") (Val.str d.id))))).colNames).map
          (fun c => lookupVal r c)).getD i Val.null = lookupVal r ("id") := by
      intro r
      rw [List.getD_eq_getElem?_getD, List.getElem?_map, List.getElem?_eq_getElem hlt]
      simp only [Option.map_some', Option.getD_some]
      congr 1
      rwa [List.getD_eq_getElem?_getD, List.getElem?_eq_getElem hlt, Option.getD_some] at hid
    calc (dfFromRows ((d0 :: ds).map (fun d =>
            convert_firestore_timestamps (dictSet d.fields ("id") (Val.str d.id))))).rows.map
          (fun r => r.getD i Val.null)
        = ((d0 :: ds).map (fun d =>
            convert_firestore_timestamps (dictSet d.fields ("id") (Val.str d.id)))).map
            (fun r => (((dfFromRows ((d0 :: ds).map (fun d =>
              convert_firestore_timestamps (dictSet d.fields ("id") (Val.str d.id))))).colNames).map
                (fun c => lookupVal r c)).getD i Val.null) := by
          rw [show (dfFromRows ((d0 :: ds).map (fun d =>
              convert_firestore_timestamps (dictSet d.fields ("id") (Val.str d.id))))).rows =
            ((d0 :: ds).map (fun d =>
              convert_firestore_timestamps (dictSet d.fields ("id") (Val.str d.id)))).map
              (fun r => ((dfFromRows ((d0 :: ds).map (fun d =>
                convert_firestore_timestamps
                  (dictSet d.fields ("id") (Val.str d.id))))).colNames).map
                (fun c => lookupVal r c)) from rfl]
          rw [List.map_map]
          rfl
      _ = ((d0 :: ds).map (fun d =>
            convert_firestore_timestamps (dictSet d.fields ("id") (Val.str d.id)))).map
            (fun r => lookupVal r ("id")) :=
          List.map_eq_map_iff.mpr (fun r _ => hgd r)
      _ = (d0 :: ds).map (fun d => Val.str d.id) := by
          rw [List.map_map]
          exact List.map_eq_map_iff.mpr (fun d _ => rowVal_id d)

theorem dfFromRows_id_mem (docs : List Doc) (h : docs ≠ []) :
    ("id") ∈ (dfFromRows (docs.map (fun d =>
      convert_firestore_timestamps (dictSet d.fields ("id") (Val.str d.id))))).colNames := by
  cases docs with
  | nil => exact absurd rfl h
  | cons d0 ds =>
    show ("id") ∈ unionKeys _
    exact unionKeys_adds _ _ (List.mem_map.mpr ⟨d0, List.mem_cons_self d0 ds, rfl⟩)
      (rowKeys_id d0) []

theorem plot_stimmung_some {df : DataFrame} {uid : String} {o : ChartOut}
    {w : List String} {dfa : DataFrame} (h : plot_stimmung df uid = (some o, w, dfa)) :
    o.xs = (((detect_time_col df).2).sortValues ((detect_time_col df).1.getD "")).col
      ((detect_time_col df).1.getD "") ∧ dfa = (detect_time_col df).2 := by
  rw [plot_stimmung.eq_def] at h
  by_cases he : df.empty = true
  · rw [if_pos he] at h
    simp at h
  · rw [if_neg he] at h
    by_cases hc : (falsyName (detect_time_col df).1 ||
        falsyName (detect_value_col (detect_time_col df).2 stimmungPref)) = true
    · rw [if_pos hc] at h
      simp at h
    · rw [if_neg hc] at h
      rw [Prod.ext_iff] at h
      obtain ⟨h1, h23⟩ := h
      rw [Prod.ext_iff] at h23
      obtain ⟨h2, h3⟩ := h23
      simp only at h1 h2 h3
      have ho := Option.some.inj h1
      constructor
      · rw [← ho]
      · rw [← h3]

theorem plot_stuhlgang_some {df : DataFrame} {uid : String} {o : ChartOut}
    {w : List String} {dfa : DataFrame} (h : plot_stuhlgang df uid = (some o, w, dfa)) :
    o.xs = ((detect_time_col df).2).col ((detect_time_col df).1.getD "") ∧
      dfa = (detect_time_col df).2 := by
  rw [plot_stuhlgang.eq_def] at h
  by_cases he : df.empty = true
  · rw [if_pos he] at h
    simp at h
  · rw [if_neg he] at h
    by_cases hc : (falsyName (detect_time_col df).1 ||
        falsyName (detect_value_col (detect_time_col df).2 stuhlgangPref)) = true
    · rw [if_pos hc] at h
      simp at h
    · rw [if_neg hc] at h
      rw [Prod.ext_iff] at h
      obtain ⟨h1, h23⟩ := h
      rw [Prod.ext_iff] at h23
      obtain ⟨h2, h3⟩ := h23
      simp only at h1 h2 h3
      have ho := Option.some.inj h1
      constructor
      · rw [← ho]
      · rw [← h3]

theorem plot_symptome_some {df : DataFrame} {uid : String} {o : ChartOut}
    {w : List String} {dfa : DataFrame} (h : plot_symptome df uid = (some o, w, dfa)) :
    o.xs = ((detect_time_col df).2).col ((detect_time_col df).1.getD "") ∧
      dfa = (detect_time_col df).2 := by
  rw [plot_symptome.eq_def] at h
  by_cases he : df.empty = true
  · rw [if_pos he] at h
    simp at h
  · rw [if_neg he] at h
    by_cases hc : (falsyName (detect_time_col df).1 ||
        falsyName (detect_value_col (detect_time_col df).2 symptomePref)) = true
    · rw [if_pos hc] at h
      simp at h
    · rw [if_neg hc] at h
      rw [Prod.ext_iff] at h
      obtain ⟨h1, h23⟩ := h
      rw [Prod.ext_iff] at h23
      obtain ⟨h2, h3⟩ := h23
      simp only at h1 h2 h3
      have ho := Option.some.inj h1
      constructor
      · rw [← ho]
      · rw [← h3]

theorem prefScan_eq (df : DataFrame) :
    ∀ preference, valuePrefScan df preference =
      preference.findSome? (fun name =>
        match df.colNames.find? (fun c => name == lowerStr c) with
        | some c => if dtypeNumeric (df.col c) then some c else none
        | none => none) := by
  intro preference
  induction preference with
  | nil => rfl
  | cons name rest ih =>
    rw [valuePrefScan, List.findSome?_cons]
    rw [show df.colNames.find? (fun c => name == lowerStr c) =
      (df.colNames.filter (fun c => name == lowerStr c)).head? from
      (List.filter_head? _ _).symm]
    cases hcols : df.colNames.filter (fun c => name == lowerStr c) with
    | nil => exact ih
    | cons c cs =>
      dsimp only [List.head?]
      cases hnum : dtypeNumeric (df.col c) with
      | true => simp
      | false => simpa using ih

theorem prefScan_two {df : DataFrame} {a b : String} (hnames : df.colNames = [a, b])
    (hnb : dtypeNumeric (df.col b) = true) :
    ∀ preference, (∀ n ∈ preference, n ≠ lowerStr a) → (lowerStr b) ∈ preference →
      valuePrefScan df preference = some b := by
  intro preference
  induction preference with
  | nil => intro _ hmem; cases hmem
  | cons n rest ih =>
    intro hpref hmem
    have hfa : (n == lowerStr a) = false := by
      rw [beq_eq_false_iff_ne]
      exact hpref n (List.mem_cons_self n rest)
    by_cases hnb2 : (n == lowerStr b) = true
    · rw [valuePrefScan, hnames]
      rw [show List.filter (fun c => n == lowerStr c) [a, b] = [b] from by
        simp [List.filter, hfa, hnb2]]
      dsimp only
      rw [if_pos hnb]
    · have hfb : (n == lowerStr b) = false := by
        cases hx : n == lowerStr b
        · rfl
        · exact absurd hx hnb2
      have hmem' : (lowerStr b) ∈ rest := by
        rcases List.mem_cons.mp hmem with heq | hm
        · exfalso
          rw [heq] at hfb
          simp at hfb
        · exact hm
      rw [valuePrefScan, hnames]
      rw [show List.filter (fun c => n == lowerStr c) [a, b] = [] from by
        simp [List.filter, hfa, hfb]]
      exact ih (fun m hm => hpref m (List.mem_cons_of_mem n hm)) hmem'

theorem detectByName_eq_spec (df : DataFrame) :
    ∀ keys, (detectByName df keys).1 =
      keys.findSome? (fun key =>
        match df.colNames.find? (fun c => strContains (lowerStr c) key) with
        | some c => if (columnParse (df.col c)).isSome then some c else none
        | none => none) := by
  intro keys
  induction keys with
  | nil => rfl
  | cons key rest ih =>
    rw [detectByName, List.findSome?_cons]
    rw [show df.colNames.find? (fun c => strContains (lowerStr c) key) =
      (df.colNames.filter (fun c => strContains (lowerStr c) key)).head? from
      (List.filter_head? _ _).symm]
    cases hcand : df.colNames.filter (fun c => strContains (lowerStr c) key) with
    | nil => exact ih
    | cons c cs =>
      dsimp only [List.head?]
      cases hp : columnParse (df.col c) with
      | some ws => simp
      | none => simpa using ih

theorem detect_time_eq_spec (df : DataFrame) :
    (detect_time_col df).1 = detect_time_spec df := by
  rw [detect_time_spec]
  rw [show df.colNames.find? (fun c => dtypeDatetime (df.col c)) =
    (df.colNames.filter (fun c => dtypeDatetime (df.col c))).head? from
    (List.filter_head? _ _).symm]
  cases h1 : df.colNames.filter (fun c => dtypeDatetime (df.col c)) with
  | cons c cs =>
    rw [detect_time_step1 h1]
    rfl
  | nil =>
    rw [detect_time_step2 h1]
    dsimp only [List.head?]
    exact detectByName_eq_spec df name_order

theorem findIdx?_map_inj {f : String → String} :
    ∀ l : List String, (l.map f).Nodup → ∀ c ∈ l,
      (l.map f).findIdx? (fun n => n == f c) = l.findIdx? (fun n => n == c) := by
  intro l
  induction l with
  | nil => intro _ c hc; cases hc
  | cons a l' ih =>
    intro hnu c hc
    rw [List.map_cons]
    by_cases hac : a = c
    · subst hac
      rw [List.findIdx?_cons, List.findIdx?_cons]
      simp
    · have hcl : c ∈ l' := by
        rcases List.mem_cons.mp hc with h | h
        · exact absurd h.symm hac
        · exact h
      have hfa : (f a == f c) = false := by
        rw [beq_eq_false_iff_ne]
        intro hfe
        have h1 : f a ∉ l'.map f := (List.nodup_cons.mp hnu).1
        exact h1 (hfe ▸ List.mem_map.mpr ⟨c, hcl, rfl⟩)
      have haa : (a == c) = false := by
        rw [beq_eq_false_iff_ne]
        exact hac
      rw [List.findIdx?_cons, List.findIdx?_cons, hfa, haa]
      simp only [Bool.false_eq_true, if_false]
      rw [List.findIdx?_succ, List.findIdx?_succ]
      rw [ih (List.nodup_cons.mp hnu).2 c hcl]

theorem rename_col {df : DataFrame} {f : String → String}
    (hnu : (df.colNames.map f).Nodup) {c : String} (hc : c ∈ df.colNames) :
    (df.renameCols f).col (f c) = df.col c := by
  rw [DataFrame.col, DataFrame.col, DataFrame.colIdx, DataFrame.colIdx]
  rw [show (df.renameCols f).colNames = df.colNames.map f from rfl]
  rw [show (df.renameCols f).rows = df.rows from rfl]
  rw [findIdx?_map_inj df.colNames hnu c hc]

theorem rename_dt_filter {df : DataFrame} {f : String → String}
    (hnu : (df.colNames.map f).Nodup) :
    (df.renameCols f).colNames.filter
        (fun c => dtypeDatetime ((df.renameCols f).col c)) =
      (df.colNames.filter (fun c => dtypeDatetime (df.col c))).map f := by
  rw [show (df.renameCols f).colNames = df.colNames.map f from rfl]
  rw [List.filter_map]
  refine congrArg (List.map f) ?_
  apply List.filter_congr
  intro c hc
  simp only [Function.comp]
  rw [rename_col hnu hc]

/-
Claim theorems.
-/

/-- C1: generate_analytics_for_user returns a mapping whose keys are
exactly the four fixed category tags, in the fixed order stuhlgang
(bowel-movement), stimmung (mood), symptome (symptom), mahlzeit (meal),
and each key is bound to the artifact path produced by that category's
chart synthesizer applied to that category's freshly fetched table (none
when the synthesizer produced no artifact). -/
theorem orchestrator_contract_C1 (db : Store) (user_id : String) :
    ((generate_analytics_for_user db user_id).1.map Prod.fst =
      ["stuhlgang", "stimmung", "symptome", "mahlzeit"]) ∧
    ((generate_analytics_for_user db user_id).1.lookup ("stuhlgang") =
      some (((plot_stuhlgang (fetch_for_user db ("stuhlgaenge") user_id).1 user_id).1).map
        ChartOut.path)) ∧
    ((generate_analytics_for_user db user_id).1.lookup ("stimmung") =
      some (((plot_stimmung (fetch_for_user db ("stimmungen") user_id).1 user_id).1).map
        ChartOut.path)) ∧
    ((generate_analytics_for_user db user_id).1.lookup ("symptome") =
      some (((plot_symptome (fetch_for_user db ("symptoms") user_id).1 user_id).1).map
        ChartOut.path)) ∧
    ((generate_analytics_for_user db user_id).1.lookup ("mahlzeit") =
      some (((plot_mahlzeit (fetch_for_user db ("mahlzeiten") user_id).1 user_id).1).map
        MealOut.path)) := by
  refine ⟨rfl, ?_, ?_, ?_, ?_⟩ <;> rfl

/-- C7: the orchestrator reads exactly the store paths
users/{user id}/{sub-collection} for the four literal sub-collection
names stuhlgaenge, stimmungen, symptoms, mahlzeiten, in that order, and a
sub-collection with no documents yields an empty table (zero rows, zero
columns) rather than an error. -/
theorem fetch_paths_C7 (db : Store) (user_id : String) :
    ((generate_analytics_for_user db user_id).2 =
      ["users/" ++ user_id ++ "/" ++ "stuhlgaenge", "users/" ++ user_id ++ "/" ++ "stimmungen",
       "users/" ++ user_id ++ "/" ++ "symptoms", "users/" ++ user_id ++ "/" ++ "mahlzeiten"]) ∧
    (∀ sub, db user_id sub = [] →
      (df_from_user_subcollection db user_id sub).1 =
        { colNames := [], rows := [] }) := by
  refine ⟨rfl, ?_⟩
  intro sub h
  simp only [df_from_user_subcollection, h, List.map_nil]
  rfl

/-- C7 witness: the empty store yields the empty table for the first
sub-collection. -/
theorem fetch_paths_C7_witness :
    dbEmpty ("u") ("stuhlgaenge") = [] ∧
    (df_from_user_subcollection dbEmpty ("u") ("stuhlgaenge")).1 =
      { colNames := [], rows := [] } :=
  ⟨rfl, (fetch_paths_C7 dbEmpty ("u")).2 ("stuhlgaenge") rfl⟩

/-- C4: on a table with zero rows every chart synthesizer returns the
absent marker and writes no file, and likewise when the time or value
column cannot be resolved; data absence is the absent result, not an
error. -/
theorem plotters_absent_C4 :
    (∀ (df : DataFrame) (uid : String), df.empty = true →
      plot_stuhlgang df uid = (none, [], df) ∧
      plot_stimmung df uid = (none, [], df) ∧
      plot_symptome df uid = (none, [], df) ∧
      plot_mahlzeit df uid = (none, [], df)) ∧
    (∀ (df : DataFrame) (uid : String),
      (falsyName (detect_time_col df).1 ||
        falsyName (detect_value_col (detect_time_col df).2 stuhlgangPref)) = true →
      (plot_stuhlgang df uid).1 = none ∧ (plot_stuhlgang df uid).2.1 = []) ∧
    (∀ (df : DataFrame) (uid : String),
      (falsyName (detect_time_col df).1 ||
        falsyName (detect_value_col (detect_time_col df).2 stimmungPref)) = true →
      (plot_stimmung df uid).1 = none ∧ (plot_stimmung df uid).2.1 = []) ∧
    (∀ (df : DataFrame) (uid : String),
      (falsyName (detect_time_col df).1 ||
        falsyName (detect_value_col (detect_time_col df).2 symptomePref)) = true →
      (plot_symptome df uid).1 = none ∧ (plot_symptome df uid).2.1 = []) ∧
    (∀ (df : DataFrame) (uid : String),
      falsyName (detect_time_col df).1 = true →
      (plot_mahlzeit df uid).1 = none ∧ (plot_mahlzeit df uid).2.1 = []) := by
  refine ⟨?_, ?_, ?_, ?_, ?_⟩
  · intro df uid h
    refine ⟨?_, ?_, ?_, ?_⟩ <;> simp [plot_stuhlgang, plot_stimmung, plot_symptome,
      plot_mahlzeit, h]
  · intro df uid h
    by_cases he : df.empty = true
    · simp [plot_stuhlgang, he]
    · simp only [Bool.not_eq_true] at he
      rw [plot_stuhlgang.eq_def]
      simp [he, h]
  · intro df uid h
    by_cases he : df.empty = true
    · simp [plot_stimmung, he]
    · simp only [Bool.not_eq_true] at he
      rw [plot_stimmung.eq_def]
      simp [he, h]
  · intro df uid h
    by_cases he : df.empty = true
    · simp [plot_symptome, he]
    · simp only [Bool.not_eq_true] at he
      rw [plot_symptome.eq_def]
      simp [he, h]
  · intro df uid h
    by_cases he : df.empty = true
    · simp [plot_mahlzeit, he]
    · simp only [Bool.not_eq_true] at he
      rw [plot_mahlzeit.eq_def]
      simp [he, h]

/-- C6: when the mood plotter produces a chart, the plotted x series is
sorted ascending (monotonically non-decreasing) in the time column; mood
is the only category whose rows are reordered before rendering: the
bowel-movement and symptom plotters plot the time column in the frame's
stored row order. -/
theorem mood_sorted_C6 :
    (∀ (df : DataFrame) (uid : String) (o : ChartOut) (w : List String) (dfa : DataFrame),
      plot_stimmung df uid = (some o, w, dfa) →
      List.Chain' (fun a b => timeLe a b = true) o.xs) ∧
    (∀ (df : DataFrame) (uid : String) (o : ChartOut) (w : List String) (dfa : DataFrame),
      plot_stuhlgang df uid = (some o, w, dfa) →
      o.xs = dfa.col ((detect_time_col df).1.getD "")) ∧
    (∀ (df : DataFrame) (uid : String) (o : ChartOut) (w : List String) (dfa : DataFrame),
      plot_symptome df uid = (some o, w, dfa) →
      o.xs = dfa.col ((detect_time_col df).1.getD "")) := by
  refine ⟨?_, ?_, ?_⟩
  · intro df uid o w dfa h
    obtain ⟨hx, _⟩ := plot_stimmung_some h
    rw [hx]
    exact (sortValues_col_pairwise ((detect_time_col df).2)
      ((detect_time_col df).1.getD "")).chain'
  · intro df uid o w dfa h
    obtain ⟨hx, hdfa⟩ := plot_stuhlgang_some h
    rw [hx, hdfa]
  · intro df uid o w dfa h
    obtain ⟨hx, hdfa⟩ := plot_symptome_some h
    rw [hx, hdfa]

/-- C6 witness: a two-row mood frame stored in descending time order is
plotted with its x series ascending. -/
theorem mood_sorted_C6_witness :
    plot_stimmung exDfMood ("u") =
      (some { path := "output/stimmung_line_u.png",
              xs := [Val.dt 3, Val.dt 5], ys := [Val.num 2, Val.num 1] },
       ["output/stimmung_line_u.png"], exDfMood) ∧
    List.Chain' (fun a b => timeLe a b = true) [Val.dt 3, Val.dt 5] :=
  ⟨by decide,
   mood_sorted_C6.1 exDfMood ("u")
     { path := "output/stimmung_line_u.png",
       xs := [Val.dt 3, Val.dt 5], ys := [Val.num 2, Val.num 1] }
     (["output/stimmung_line_u.png"]) exDfMood (by decide)⟩

/-- C8: the export document is composed in fixed section order: a title
page first, then one chart page per present artifact in category order,
then one raw-data page per category in category order, each rendering at
most the first 30 rows of the freshly fetched table as a grid headed by
the column names, or a single no-data page when the table is empty; in
particular a user with zero documents in all four sub-collections gets a
title page, four no-data pages and zero chart pages. -/
theorem export_pages_C8 (db : Store) (user_id : String) :
    ((generate_export_pdf_for_user db user_id).2.head? = some (Page.title user_id)) ∧
    ((generate_export_pdf_for_user db user_id).2 =
      Page.title user_id ::
        (((generate_analytics_for_user db user_id).1.filterMap (fun kv =>
            match kv.2 with
            | some p => if p.isEmpty then none else some (kv.1, p)
            | none => none)).map (fun np => Page.chart np.1 np.2) ++
          collections.map (fun c => dataPage c (fetch_for_user db c user_id).1))) ∧
    (∀ p ∈ (generate_export_pdf_for_user db user_id).2,
      ∀ col hdr cells, p = Page.grid col hdr cells →
        cells.length ≤ 30 ∧
        hdr = (fetch_for_user db col user_id).1.colNames ∧
        cells = (fetch_for_user db col user_id).1.rows.take 30) ∧
    (db user_id ("stuhlgaenge") = [] → db user_id ("stimmungen") = [] →
      db user_id ("symptoms") = [] → db user_id ("mahlzeiten") = [] →
      (generate_export_pdf_for_user db user_id).2 =
        [Page.title user_id, Page.noData ("stuhlgaenge"), Page.noData ("stimmungen"),
         Page.noData ("symptoms"), Page.noData ("mahlzeiten")]) := by
  refine ⟨rfl, ?_, ?_, ?_⟩
  · show Page.title user_id ::
        (_ ++ (collections.map (fun c => (c, (fetch_for_user db c user_id).1))).map
          (fun cd => dataPage cd.1 cd.2)) = _
    rw [List.map_map]
    rfl
  · intro p hp col hdr cells hpg
    subst hpg
    rw [show (generate_export_pdf_for_user db user_id).2 = Page.title user_id ::
        (((generate_analytics_for_user db user_id).1.filterMap (fun kv =>
            match kv.2 with
            | some p => if p.isEmpty then none else some (kv.1, p)
            | none => none)).map (fun np => Page.chart np.1 np.2) ++
          (collections.map (fun c => (c, (fetch_for_user db c user_id).1))).map
            (fun cd => dataPage cd.1 cd.2)) from rfl] at hp
    rcases List.mem_cons.mp hp with h | h
    · cases h
    rcases List.mem_append.mp h with h | h
    · obtain ⟨np, _, hnp⟩ := List.mem_map.mp h
      cases hnp
    obtain ⟨cd, hcd, hdp⟩ := List.mem_map.mp h
    obtain ⟨c, hc, rfl⟩ := List.mem_map.mp hcd
    rw [dataPage] at hdp
    by_cases hemp : (fetch_for_user db c user_id).1.empty = true
    · rw [if_pos hemp] at hdp
      cases hdp
    · rw [if_neg hemp] at hdp
      obtain ⟨rfl, h2, h3⟩ := Page.grid.inj hdp
      refine ⟨?_, h2.symm, h3.symm⟩
      rw [← h3]
      exact List.length_take_le 30 _
  · intro h1 h2 h3 h4
    simp only [generate_export_pdf_for_user, generate_analytics_for_user, fetch_for_user,
      df_from_user_subcollection, collections, List.map_cons, List.map_nil, h1, h2, h3, h4]
    rfl

/-- C8 witness: the all-empty store yields exactly a title page and four
no-data pages, and a store with two meal documents yields a grid page
bounded by 30 rows with the fetched column names as header. -/
theorem export_pages_C8_witness :
    (dbEmpty ("u1") ("stuhlgaenge") = [] ∧ dbEmpty ("u1") ("stimmungen") = [] ∧
      dbEmpty ("u1") ("symptoms") = [] ∧ dbEmpty ("u1") ("mahlzeiten") = []) ∧
    (generate_export_pdf_for_user dbEmpty ("u1")).2 =
      [Page.title ("u1"), Page.noData ("stuhlgaenge"), Page.noData ("stimmungen"),
       Page.noData ("symptoms"), Page.noData ("mahlzeiten")] ∧
    (Page.grid ("mahlzeiten") (["mahlzeitZeitpunkt", "id", "x"])
        ([[Val.dt 10, Val.str ("d1"), Val.null], [Val.null, Val.str ("d2"), Val.num 3]]) ∈
      (generate_export_pdf_for_user dbDocs ("u2")).2) ∧
    ([[Val.dt 10, Val.str ("d1"), Val.null],
      [Val.null, Val.str ("d2"), Val.num 3]] : List (List Val)).length ≤ 30 :=
  ⟨⟨rfl, rfl, rfl, rfl⟩,
   (export_pages_C8 dbEmpty ("u1")).2.2.2 rfl rfl rfl rfl,
   by decide,
   ((export_pages_C8 dbDocs ("u2")).2.2.1 _ (by decide)
     ("mahlzeiten") (["mahlzeitZeitpunkt", "id", "x"])
     ([[Val.dt 10, Val.str ("d1"), Val.null], [Val.null, Val.str ("d2"), Val.num 3]])
     rfl).1⟩

/-- C9: every table produced by the record fetcher carries the document
identifier field: the id column lists exactly the store document
identifiers in document order (so the store identifier wins even when a
fetched document has its own id field, because the fetcher assigns the
store identifier after copying the fields), the id column exists whenever
any document exists, and pairwise-distinct store identifiers make the id
column pairwise distinct. -/
theorem fetch_id_C9 (db : Store) (user_id sub : String) :
    ((df_from_user_subcollection db user_id sub).1.col ("id") =
      (db user_id sub).map (fun d => Val.str d.id)) ∧
    (db user_id sub ≠ [] →
      ("id") ∈ (df_from_user_subcollection db user_id sub).1.colNames) ∧
    (((db user_id sub).map Doc.id).Nodup →
      ((df_from_user_subcollection db user_id sub).1.col ("id")).Nodup) := by
  have hdf : (df_from_user_subcollection db user_id sub).1 =
      dfFromRows ((db user_id sub).map (fun d =>
        convert_firestore_timestamps (dictSet d.fields ("id") (Val.str d.id)))) := rfl
  refine ⟨?_, ?_, ?_⟩
  · rw [hdf]
    exact dfFromRows_col_id (db user_id sub)
  · intro h
    rw [hdf]
    exact dfFromRows_id_mem _ h
  · intro h
    rw [hdf, dfFromRows_col_id]
    have hmm : (db user_id sub).map (fun d => Val.str d.id) =
        ((db user_id sub).map Doc.id).map Val.str := by
      rw [List.map_map]
      rfl
    rw [hmm]
    exact h.map (fun a b hab => by injection hab)

/-- C9 witness: a store with two documents, one of which carries its own
id field, yields the two store identifiers as the id column. -/
theorem fetch_id_C9_witness :
    dbDocs ("u2") ("mahlzeiten") ≠ [] ∧
    ((dbDocs ("u2") ("mahlzeiten")).map Doc.id).Nodup ∧
    ("id") ∈ (df_from_user_subcollection dbDocs ("u2") ("mahlzeiten")).1.colNames ∧
    ((df_from_user_subcollection dbDocs ("u2") ("mahlzeiten")).1.col ("id")).Nodup :=
  ⟨by decide, by decide,
   (fetch_id_C9 dbDocs ("u2") ("mahlzeiten")).2.1 (by decide),
   (fetch_id_C9 dbDocs ("u2") ("mahlzeiten")).2.2 (by decide)⟩

/-- C10: detect_time_col is not pure in its frame argument: when the time
column is resolved by the name heuristic, that column is overwritten in
place with its parsed datetime values and every other column is left
unchanged; plot_mahlzeit likewise leaves the caller's frame with the
detected time column overwritten by coerced datetime values (unparseable
entries becoming null) and other columns unchanged. -/
theorem frame_effects_C10 :
    (∀ (df : DataFrame) (tcol : String), df.wfB = true →
      df.colNames.filter (fun c => dtypeDatetime (df.col c)) = [] →
      (detect_time_col df).1 = some tcol →
      ∃ ws, columnParse (df.col tcol) = some ws ∧
        (detect_time_col df).2 = df.setCol tcol ws ∧
        ((detect_time_col df).2).col tcol = ws ∧
        (∀ c, c ≠ tcol → ((detect_time_col df).2).col c = df.col c)) ∧
    (∀ (df : DataFrame) (uid tcol : String), df.wfB = true → df.empty = false →
      (detect_time_col df).1 = some tcol → tcol.isEmpty = false →
      ((plot_mahlzeit df uid).2.2 =
        ((detect_time_col df).2).setCol tcol (coerceCol (((detect_time_col df).2).col tcol)) ∧
       ((plot_mahlzeit df uid).2.2).col tcol =
        coerceCol (((detect_time_col df).2).col tcol) ∧
       (∀ c, c ≠ tcol →
        ((plot_mahlzeit df uid).2.2).col c = ((detect_time_col df).2).col c))) := by
  constructor
  · intro df tcol hwf h1 hdet
    obtain ⟨ws, hp, hfr⟩ := detect_time_frame h1 hdet
    obtain ⟨ws2, hp2, hcol⟩ := detect_time_col_self hwf h1 hdet
    rw [hp] at hp2
    have hws : ws = ws2 := by simpa using hp2
    subst hws
    exact ⟨ws, hp, hfr, hcol, fun c hc => detect_time_col_ne hdet hc⟩
  · intro df uid tcol hwf hne hdet hfal
    have heval := plot_mahlzeit_eval uid hwf hne hdet hfal
    have hframe : (plot_mahlzeit df uid).2.2 =
        ((detect_time_col df).2).setCol tcol
          (coerceCol (((detect_time_col df).2).col tcol)) := by
      rw [heval]
    obtain ⟨i, hi⟩ := colIdx_isSome_of_mem (detect_time_mem1 hdet)
    have hwf1 : ((detect_time_col df).2).wfB = true := detect_time_wfB hwf
    have hlen : (coerceCol (((detect_time_col df).2).col tcol)).length =
        ((detect_time_col df).2).rows.length := by
      rw [coerceCol, List.length_map]
      exact col_length hi
    refine ⟨hframe, ?_, ?_⟩
    · rw [hframe]
      exact setCol_col_self hi hlen hwf1
    · intro c hc
      rw [hframe]
      exact setCol_col_ne hi hlen hc

/-- C10 witness: a one-column frame named zeit holding a parsable string
is overwritten in place with the parsed datetime, both by detect_time_col
and by plot_mahlzeit (where the coercion keeps the parsed value). -/
theorem frame_effects_C10_witness :
    exDfZeit.wfB = true ∧
    exDfZeit.colNames.filter (fun c => dtypeDatetime (exDfZeit.col c)) = [] ∧
    (detect_time_col exDfZeit).1 = some ("zeit") ∧
    (∃ ws, columnParse (exDfZeit.col ("zeit")) = some ws ∧
      (detect_time_col exDfZeit).2 = exDfZeit.setCol ("zeit") ws ∧
      ((detect_time_col exDfZeit).2).col ("zeit") = ws ∧
      (∀ c, c ≠ ("zeit") → ((detect_time_col exDfZeit).2).col c = exDfZeit.col c)) ∧
    (plot_mahlzeit exDfZeit ("u")).2.2 =
      ((detect_time_col exDfZeit).2).setCol ("zeit")
        (coerceCol (((detect_time_col exDfZeit).2).col ("zeit"))) :=
  ⟨by decide, by decide, by decide,
   frame_effects_C10.1 exDfZeit ("zeit") (by decide) (by decide) (by decide),
   (frame_effects_C10.2 exDfZeit ("u") ("zeit") (by decide) (by decide) (by decide)
     (by decide)).1⟩

/-- C2: detect_time_col implements the three-step policy worded by the
specification (datetime dtype first by column order; else the ordered
name-fragment scan where a parse failure moves to the next fragment, not
the next column; else none), and on every table having at least one
datetime-typed column the selection is independent of the column names:
renaming the columns injectively renames the result accordingly. -/
theorem time_detect_C2 :
    (∀ df : DataFrame, (detect_time_col df).1 = detect_time_spec df) ∧
    (∀ (df : DataFrame) (f : String → String),
      (∃ c ∈ df.colNames, dtypeDatetime (df.col c) = true) →
      (df.colNames.map f).Nodup →
      (detect_time_col (df.renameCols f)).1 = ((detect_time_col df).1).map f) := by
  constructor
  · exact detect_time_eq_spec
  · intro df f hex hnu
    obtain ⟨c0, hc0, hdt⟩ := hex
    have hne : df.colNames.filter (fun c => dtypeDatetime (df.col c)) ≠ [] := by
      intro h
      have : c0 ∈ df.colNames.filter (fun c => dtypeDatetime (df.col c)) :=
        List.mem_filter.mpr ⟨hc0, hdt⟩
      rw [h] at this
      cases this
    cases h1 : df.colNames.filter (fun c => dtypeDatetime (df.col c)) with
    | nil => exact absurd h1 hne
    | cons c cs =>
      have h2 : (df.renameCols f).colNames.filter
          (fun x => dtypeDatetime ((df.renameCols f).col x)) = f c :: cs.map f := by
        rw [rename_dt_filter hnu, h1, List.map_cons]
      rw [detect_time_step1 h2, detect_time_step1 h1]
      rfl

/-- C2 witness: a table with a datetime-typed second column selects it by
type, and an injective renaming of both columns renames the selection. -/
theorem time_detect_C2_witness :
    (detect_time_col exDfMood).1 = detect_time_spec exDfMood ∧
    (∃ c ∈ exDfMood.colNames, dtypeDatetime (exDfMood.col c) = true) ∧
    (exDfMood.colNames.map (fun s => s ++ "!")).Nodup ∧
    (detect_time_col (exDfMood.renameCols (fun s => s ++ "!"))).1 =
      ((detect_time_col exDfMood).1).map (fun s => s ++ "!") :=
  ⟨time_detect_C2.1 exDfMood,
   ⟨"zeit", by decide, by decide⟩,
   by decide,
   time_detect_C2.2 exDfMood (fun s => s ++ "!") ⟨"zeit", by decide, by decide⟩
     (by decide)⟩

/-- C3 counterexample: with columns Wert (strings), other (numeric), WERT
(numeric) and preferred name wert, the code tests only the first
lowercase-matching column (Wert), which is not numeric, and falls back to
the first numeric column (other); the claimed policy would select the
first column that both matches and is numeric (WERT). -/
theorem value_detect_C3_counterexample :
    detect_value_col exDfC3 (["wert"]) = some ("other") ∧
    detect_value_spec_claimed exDfC3 (["wert"]) = some ("WERT") ∧
    detect_value_col exDfC3 (["wert"]) ≠ detect_value_spec_claimed exDfC3 (["wert"]) :=
  ⟨by decide, by decide, by decide⟩

/-- C3 as amended: for each preferred name in list order only the first
column whose lowercased name equals the name is examined, and it is
returned exactly when its values are numeric (a non-numeric first match
skips to the next preferred name, not to the next matching column); else
the first numeric column in column order; else none.  In particular,
given two numeric columns where only the second matches a preferred name,
the preferred-name match wins over the earlier numeric column. -/
theorem value_detect_C3 :
    (∀ (df : DataFrame) (preference : List String),
      detect_value_col df preference = detect_value_spec_amended df preference) ∧
    (∀ (df : DataFrame) (preference : List String) (a b : String),
      df.colNames = [a, b] →
      dtypeNumeric (df.col a) = true → dtypeNumeric (df.col b) = true →
      (∀ n ∈ preference, n ≠ lowerStr a) → (lowerStr b) ∈ preference →
      detect_value_col df preference = some b) := by
  constructor
  · intro df preference
    rw [detect_value_col.eq_def, detect_value_spec_amended.eq_def, prefScan_eq]
  · intro df preference a b hnames hna hnb hpref hmem
    rw [detect_value_col.eq_def, prefScan_two hnames hnb preference hpref hmem]

/-- C3 witness: with columns a (numeric) and Wert (numeric) and preferred
name wert, the preferred-name match Wert wins over the earlier numeric
column a. -/
theorem value_detect_C3_witness :
    (detect_value_col exDfC3 (["wert"]) =
      detect_value_spec_amended exDfC3 (["wert"])) ∧
    (({ colNames := ["a", "Wert"], rows := [[Val.num 1, Val.num 2]] } :
        DataFrame).colNames = ["a", "Wert"] ∧
      detect_value_col
        ({ colNames := ["a", "Wert"], rows := [[Val.num 1, Val.num 2]] } : DataFrame)
        (["wert"]) = some ("Wert")) :=
  ⟨value_detect_C3.1 exDfC3 (["wert"]),
   ⟨rfl,
    value_detect_C3.2
      ({ colNames := ["a", "Wert"], rows := [[Val.num 1, Val.num 2]] } : DataFrame)
      (["wert"]) ("a") ("Wert") rfl (by decide) (by decide) (by decide) (by decide)⟩⟩

/-- C5: for a non-empty meal table whose time column is detected, every
produced daily bucket counts exactly the source rows whose time value
parses to that calendar day, the bucket keys are exactly the days with at
least one parsing row (rows with unparseable time values are excluded
from all buckets, without an error), the bucket counts sum to the number
of parsing rows, and when no row parses (zero buckets) the synthesizer
returns the absent marker. -/
theorem meal_grouping_C5 (df : DataFrame) (uid tcol : String) (hwf : df.wfB = true)
    (hne : df.empty = false) (hdet : (detect_time_col df).1 = some tcol)
    (hfal : tcol.isEmpty = false) :
    (∀ o, (plot_mahlzeit df uid).1 = some o →
      (∀ d n, (d, n) ∈ o.counts →
        n = (df.col tcol).countP (fun v => parseDate v == some d)) ∧
      ((o.counts.map Prod.snd).sum =
        (df.col tcol).countP (fun v => (parseVal v).isSome)) ∧
      (∀ d, d ∈ o.counts.map Prod.fst ↔
        0 < (df.col tcol).countP (fun v => parseDate v == some d))) ∧
    ((df.col tcol).countP (fun v => (parseVal v).isSome) = 0 →
      (plot_mahlzeit df uid).1 = none) := by
  have heval := plot_mahlzeit_eval uid hwf hne hdet hfal
  have hmapeq : (((detect_time_col df).2).col tcol).map parseVal =
      (df.col tcol).map parseVal := detect_time_parse hwf hdet
  have hcountP : ∀ q : Option Int → Bool,
      (((detect_time_col df).2).col tcol).countP (fun v => q (parseVal v)) =
        (df.col tcol).countP (fun v => q (parseVal v)) := by
    intro q
    have h1 : ∀ vs : List Val, vs.countP (fun v => q (parseVal v)) =
        (vs.map parseVal).countP q := by
      intro vs
      rw [List.countP_map]
      rfl
    rw [h1, h1, hmapeq]
  have hds : (((detect_time_col df).2).col tcol).filterMap parseDate =
      ((((detect_time_col df).2).col tcol).map parseVal).filterMap
        (fun o => o.map dayOf) := by
    rw [List.filterMap_map]
    rfl
  constructor
  · intro o ho
    rw [heval] at ho
    by_cases hgc : (groupCounts ((((detect_time_col df).2).col tcol).filterMap
        parseDate)).isEmpty = true
    · rw [if_pos hgc] at ho
      cases ho
    · rw [if_neg hgc] at ho
      have hoc : o.counts =
          groupCounts ((((detect_time_col df).2).col tcol).filterMap parseDate) := by
        have := congrArg MealOut.counts (Option.some.inj ho)
        exact this.symm
      refine ⟨?_, ?_, ?_⟩
      · intro d n hdn
        rw [hoc] at hdn
        have hc := groupCounts_mem hdn
        rw [hc, count_filterMap_parseDate]
        have : ∀ vs : List Val, vs.countP (fun v => parseDate v == some d) =
            vs.countP (fun v => (parseVal v).map dayOf == some d) := by
          intro vs
          rfl
        rw [this, hcountP (fun x => x.map dayOf == some d), ← this]
      · rw [hoc, groupCounts_sum, length_filterMap_parseDate]
        exact hcountP (fun x => x.isSome)
      · intro d
        rw [hoc, groupCounts_key_mem]
        rw [show (((detect_time_col df).2).col tcol).filterMap parseDate =
            (((detect_time_col df).2).col tcol).filterMap parseDate from rfl]
        constructor
        · intro hmem
          have : 0 < ((((detect_time_col df).2).col tcol).filterMap parseDate).count d :=
            List.count_pos_iff.mpr hmem
          rw [count_filterMap_parseDate] at this
          calc 0 < (((detect_time_col df).2).col tcol).countP
                (fun v => parseDate v == some d) := this
            _ = (df.col tcol).countP (fun v => parseDate v == some d) :=
                hcountP (fun x => x.map dayOf == some d)
        · intro hpos
          apply List.count_pos_iff.mp
          rw [count_filterMap_parseDate]
          calc 0 < (df.col tcol).countP (fun v => parseDate v == some d) := hpos
            _ = (((detect_time_col df).2).col tcol).countP
                (fun v => parseDate v == some d) :=
                (hcountP (fun x => x.map dayOf == some d)).symm
  · intro hzero
    rw [heval]
    have hlen0 : ((((detect_time_col df).2).col tcol).filterMap parseDate).length = 0 := by
      rw [length_filterMap_parseDate, hcountP (fun x => x.isSome), hzero]
    have hnil : (((detect_time_col df).2).col tcol).filterMap parseDate = [] :=
      List.length_eq_zero.mp hlen0
    rw [if_pos ((groupCounts_isEmpty _).mpr hnil)]

/-- C5 witness: a meal frame with rows on two calendar days and one null
time entry buckets the parsing rows by day and drops the null row. -/
theorem meal_grouping_C5_witness :
    exDfMeal.wfB = true ∧ exDfMeal.empty = false ∧
    (detect_time_col exDfMeal).1 = some ("mahlzeitZeitpunkt") ∧
    (plot_mahlzeit exDfMeal ("u")).1 =
      some { path := "output/mahlzeiten_bars_u.png", counts := [(0, 2), (1, 1)] } ∧
    (2 = (exDfMeal.col ("mahlzeitZeitpunkt")).countP (fun v => parseDate v == some 0) ∧
     1 = (exDfMeal.col ("mahlzeitZeitpunkt")).countP (fun v => parseDate v == some 1)) :=
  ⟨by decide, by decide, by decide, by decide,
   (meal_grouping_C5 exDfMeal ("u") ("mahlzeitZeitpunkt") (by decide) (by decide)
       (by decide) (by decide)).1
     { path := "output/mahlzeiten_bars_u.png", counts := [(0, 2), (1, 1)] } (by decide)
     |>.1 0 2 (by decide),
   (meal_grouping_C5 exDfMeal ("u") ("mahlzeitZeitpunkt") (by decide) (by decide)
       (by decide) (by decide)).1
     { path := "output/mahlzeiten_bars_u.png", counts := [(0, 2), (1, 1)] } (by decide)
     |>.1 1 1 (by decide)⟩

/-- C4 witness: the empty frame and a frame with one unusable column both
yield the absent result with no file write. -/
theorem plotters_absent_C4_witness :
    (DataFrame.empty { colNames := [], rows := [] } = true ∧
      plot_stuhlgang { colNames := [], rows := [] } ("u") =
        (none, [], { colNames := [], rows := [] })) ∧
    ((falsyName (detect_time_col exDfPlain).1 ||
        falsyName (detect_value_col (detect_time_col exDfPlain).2 stuhlgangPref)) = true ∧
      (plot_stuhlgang exDfPlain ("u")).1 = none ∧
      (plot_stuhlgang exDfPlain ("u")).2.1 = []) :=
  ⟨⟨rfl, (plotters_absent_C4.1 { colNames := [], rows := [] } ("u") rfl).1⟩,
   ⟨by decide, plotters_absent_C4.2.1 exDfPlain ("u") (by decide)⟩⟩

end Cedmate
